import Mathlib

/-!
Verification development for the koloss-v2 ARC-AGI program-synthesis core.

Shallow embedding conventions, used consistently below:
* Rust `Vec<Vec<u8>>` grids become `List (List Nat)`; `u8` color values are
  modelled by `Nat` (no arithmetic is ever performed on colors, only copies
  and comparisons, so no wraparound can occur in the modelled code paths).
* `usize` indices become `Nat`; `i32` offsets become `Int`.
* `f64` scores become `ℚ` (exact rationals).  Every score in scope is built
  from small literals (3.3, 0.95, 100.0, ...) by sums, products and divisions
  of values of modest magnitude; the claims under study concern exact zeroes,
  exact formulas and order comparisons, which the rational model preserves.
* Rust's panicking index `v[i]` is modelled by `getD`/`set` (no-op or default
  out of bounds) at call sites that are provably in bounds for the inputs the
  code reaches; the single call site that CAN go out of bounds in the source
  (`border_fill` on a zero-width grid) additionally gets an `Option`-valued
  checked model, `border_fill_checked`, where `none` models the Rust panic.
* `FxHashMap` frontiers/tables become association lists keyed by the embedded
  64-bit fingerprint resp. structural keys; lookups are key-equality based and
  therefore order-independent, and iteration is modelled in insertion order.
* Worklist loops (DFS with a visited set) take an explicit fuel argument; the
  callers pass a fuel that dominates the loop's termination measure (each pop
  removes one stack entry and every push marks one previously unmarked cell,
  so `rows*cols + initial stack + 1` pops always suffice).
-/

set_option maxHeartbeats 4000000
set_option maxRecDepth 100000

namespace Koloss

/-- Grids: `pub type Grid = Vec<Vec<u8>>;` from src/synthesis/dsl.rs. -/
abbrev Grid := List (List Nat)

/-- Number of rows (`grid.len()`). -/
def rows (g : Grid) : Nat := g.length

/-- Number of columns of the first row (`grid[0].len()` guarded by emptiness). -/
def width (g : Grid) : Nat := (g.headD []).length

/-- Cell read `g[r][c]`, total model (all modelled call sites are in bounds). -/
def cell (g : Grid) (r c : Nat) : Nat := (g.getD r []).getD c 0

/-- Cell write `g[r][c] = v`, total model (no-op out of bounds). -/
def setCell (g : Grid) (r c v : Nat) : Grid := g.set r ((g.getD r []).set c v)

/-- Rectangularity: every row has the width of the first row. -/
def Rect (g : Grid) : Prop := ∀ row ∈ g, row.length = width g

instance (g : Grid) : Decidable (Rect g) := by
  unfold Rect; infer_instance

/-- `grid_dimensions` from dsl.rs. -/
def grid_dimensions (g : Grid) : Nat × Nat :=
  if g.isEmpty then (0, 0) else (g.length, width g)

/-- `unique_colors` from dsl.rs: first-occurrence order of distinct colors. -/
def unique_colors (g : Grid) : List Nat :=
  (g.flatten).foldl (fun acc c => if c ∈ acc then acc else acc ++ [c]) []

/-- `is_symmetric_h` from dsl.rs. -/
def is_symmetric_h (g : Grid) : Bool :=
  g.all fun row =>
    (List.range (row.length / 2)).all fun i =>
      row.getD i 0 == row.getD (row.length - 1 - i) 0

/-- `is_symmetric_v` from dsl.rs. -/
def is_symmetric_v (g : Grid) : Bool :=
  (List.range (g.length / 2)).all fun i =>
    g.getD i [] == g.getD (g.length - 1 - i) []

/-- `detect_period_h` from dsl.rs. -/
def detect_period_h (g : Grid) : Option Nat :=
  if g.isEmpty then none else
  let cols := width g
  ((List.range (cols / 2)).map (· + 1)).find? fun period =>
    cols % period == 0 &&
      g.all fun row =>
        (List.range cols).all fun c =>
          c < period || row.getD c 0 == row.getD (c % period) 0

/-- `detect_period_v` from dsl.rs. -/
def detect_period_v (g : Grid) : Option Nat :=
  let rws := g.length
  ((List.range (rws / 2)).map (· + 1)).find? fun period =>
    rws % period == 0 &&
      (List.range rws).all fun r =>
        r < period || g.getD r [] == g.getD (r % period) []

-- --- geometric primitive implementations from dsl.rs ---

/-- `rotate_cw` from dsl.rs. -/
def rotate_cw (g : Grid) : Grid :=
  if g.isEmpty then g else
  (List.range (width g)).map fun c =>
    ((List.range (rows g)).reverse).map fun r => cell g r c

/-- `rotate_ccw` from dsl.rs. -/
def rotate_ccw (g : Grid) : Grid :=
  if g.isEmpty then g else
  ((List.range (width g)).reverse).map fun c =>
    (List.range (rows g)).map fun r => cell g r c

/-- `flip_h` from dsl.rs. -/
def flip_h (g : Grid) : Grid := g.map List.reverse

/-- `flip_v` from dsl.rs. -/
def flip_v (g : Grid) : Grid := g.reverse

/-- `transpose` from dsl.rs. -/
def transposeG (g : Grid) : Grid :=
  if g.isEmpty then g else
  (List.range (width g)).map fun c => g.map fun row => row.getD c 0

/-- `fill_color` from dsl.rs. -/
def fill_color (g : Grid) (color : Nat) : Grid :=
  g.map fun row => row.map fun c => if c ≠ 0 then color else 0

/-- `replace_color` from dsl.rs. -/
def replace_color (g : Grid) (fromC toC : Nat) : Grid :=
  g.map fun row => row.map fun c => if c = fromC then toC else c

/-- `crop` from dsl.rs. -/
def cropG (g : Grid) (r c h w : Nat) : Grid :=
  ((g.drop r).take h).map fun row => (row.drop c).take w

/-- `pad` from dsl.rs. -/
def padG (g : Grid) (n color : Nat) : Grid :=
  if g.isEmpty then g else
  let new_cols := width g + 2 * n
  List.replicate n (List.replicate new_cols color)
    ++ g.map (fun row => List.replicate n color ++ row ++ List.replicate n color)
    ++ List.replicate n (List.replicate new_cols color)

/-- `scale` from dsl.rs. -/
def scaleG (g : Grid) (s : Nat) : Grid :=
  g.flatMap fun row =>
    List.replicate s (row.flatMap fun c => List.replicate s c)

/-- `filter_color` from dsl.rs. -/
def filter_color (g : Grid) (color : Nat) : Grid :=
  g.map fun row => row.map fun c => if c = color then c else 0

/-- All-zero grid `vec![vec![0u8; cols]; rows]`. -/
def zeroGrid (rws cols : Nat) : Grid :=
  List.replicate rws (List.replicate cols 0)

/-- `gravity_down` from dsl.rs: per column, collect the non-zero entries and
write them at the bottom of an all-zero grid. -/
def gravity_down (g : Grid) : Grid :=
  if g.isEmpty then g else
  let rws := rows g
  let cols := width g
  (List.range cols).foldl (fun acc c =>
    let non_zero := ((List.range rws).map fun r => cell g r c).filter (· ≠ 0)
    let offset := rws - non_zero.length
    (non_zero.enum).foldl (fun a (p : Nat × Nat) =>
      setCell a (offset + p.1) c p.2) acc) (zeroGrid rws cols)

/-- Rust `Iterator::max_by_key` (last maximal element wins ties). -/
def maxByKeyLast {α : Type} (key : α → Nat) : List α → Option α
  | [] => none
  | x :: xs => some (xs.foldl (fun best y => if key best ≤ key y then y else best) x)

/-- Rust `Iterator::min_by_key` (first minimal element wins ties). -/
def minByKeyFirst {α : Type} (key : α → Nat) : List α → Option α
  | [] => none
  | x :: xs => some (xs.foldl (fun best y => if key y < key best then y else best) x)

/-- Color histogram over cells below 10 (the `counts` array pattern). -/
def colorCounts (g : Grid) : List Nat :=
  (List.range 10).map fun i =>
    (g.flatten).countP fun c => c == i

/-- `most_frequent_fill` from dsl.rs: zero out count of color 0, take the
last arg-max index, and fill. -/
def most_frequent_fill (g : Grid) : Grid :=
  let counts := (colorCounts g).set 0 0
  let mfc := ((maxByKeyLast (fun p : Nat × Nat => p.2) counts.enum).map Prod.fst).getD 0
  fill_color g mfc

/-- `border_fill` from dsl.rs, total model (writes are dropped when the row is
too short; see `border_fill_checked` for the panic-accurate model). -/
def border_fill (g : Grid) (color : Nat) : Grid :=
  if g.isEmpty then g else
  let rws := rows g
  let cols := width g
  let g1 := (List.range cols).foldl
    (fun acc c => setCell (setCell acc 0 c color) (rws - 1) c color) g
  (List.range rws).foldl
    (fun acc r => setCell (setCell acc r 0 color) r (cols - 1) color) g1

/-- `border_fill` with a panic-accurate result: `none` models the Rust panic
that occurs when `result[r][0]`/`result[r][cols-1]` indexes an empty row
(`cols = 0` with at least one row). -/
def border_fill_checked (g : Grid) (color : Nat) : Option Grid :=
  if g.isEmpty then some g else
  if width g = 0 then none else some (border_fill g color)

/-- `mirror_h` from dsl.rs. -/
def mirror_h (g : Grid) : Grid :=
  if g.isEmpty then g else
  let cols := width g
  g.map fun row => (row ++ row.reverse).take (cols * 2)

/-- `mirror_v` from dsl.rs. -/
def mirror_v (g : Grid) : Grid := g ++ g.reverse

/-- `repeat_h` from dsl.rs. -/
def repeat_h (g : Grid) (n : Nat) : Grid :=
  g.map fun row => (List.replicate n row).flatten

/-- `repeat_v` from dsl.rs. -/
def repeat_v (g : Grid) (n : Nat) : Grid := (List.replicate n g).flatten

/-- `invert` from dsl.rs: zero cells become the maximal color, others zero. -/
def invertG (g : Grid) : Grid :=
  let max_color := (g.flatten).foldl Nat.max 0
  let max_color := if g.flatten = [] then 1 else max_color
  g.map fun row => row.map fun c => if c = 0 then max_color else 0

/-- Sort key of `sort_rows_by_color`: first non-zero entry, else 255. -/
def rowColorKey (row : List Nat) : Nat := (row.find? (· ≠ 0)).getD 255

/-- Stable insertion into an ascending-by-key list (models Rust's stable
`sort_by_key`: since the sort folds from the right, the inserted element is
the earlier one and must land before equal keys). -/
def insertByKey {α : Type} (key : α → Nat) (x : α) : List α → List α
  | [] => [x]
  | y :: ys => if key x ≤ key y then x :: y :: ys else y :: insertByKey key x ys

/-- Stable sort by key, ascending. -/
def stableSortByKey {α : Type} (key : α → Nat) : List α → List α
  | [] => []
  | x :: xs => insertByKey key x (stableSortByKey key xs)

/-- `sort_rows_by_color` from dsl.rs. -/
def sort_rows_by_color (g : Grid) : Grid := stableSortByKey rowColorKey g

/-- `sort_cols_by_color` from dsl.rs. -/
def sort_cols_by_color (g : Grid) : Grid :=
  transposeG (sort_rows_by_color (transposeG g))

/-- `translate` from dsl.rs: write each non-zero cell shifted by `(dr, dc)`
into an all-zero grid, dropping shifts that land outside. -/
def translateG (g : Grid) (dr dc : Int) : Grid :=
  if g.isEmpty then g else
  let rws := rows g
  let cols := width g
  (List.range rws).foldl (fun acc r =>
    (List.range cols).foldl (fun a c =>
      if cell g r c ≠ 0 then
        let nr := (r : Int) + dr
        let nc := (c : Int) + dc
        if 0 ≤ nr ∧ nr.toNat < rws ∧ 0 ≤ nc ∧ nc.toNat < cols then
          setCell a nr.toNat nc.toNat (cell g r c)
        else a
      else a) acc) (zeroGrid rws cols)

/-- `crop_to_bbox` from dsl.rs. -/
def crop_to_bbox (g : Grid) : Grid :=
  if g.isEmpty then g else
  let rws := rows g
  let cols := width g
  let nzCells := (List.range rws).flatMap fun r =>
    (List.range cols).filterMap fun c =>
      if cell g r c ≠ 0 then some (r, c) else none
  match nzCells with
  | [] => [[0]]
  | _ =>
    let min_r := (nzCells.map Prod.fst).foldl Nat.min rws
    let max_r := (nzCells.map Prod.fst).foldl Nat.max 0
    let min_c := (nzCells.map Prod.snd).foldl Nat.min cols
    let max_c := (nzCells.map Prod.snd).foldl Nat.max 0
    cropG g min_r min_c (max_r - min_r + 1) (max_c - min_c + 1)

/-- `extend_h_lines` from dsl.rs: each non-zero pixel of `g` paints its full
row of an all-zero result, in scan order. -/
def extend_h_lines (g : Grid) : Grid :=
  if g.isEmpty then g else
  let rws := rows g
  let cols := width g
  (List.range rws).foldl (fun acc r =>
    (List.range cols).foldl (fun a c =>
      if cell g r c ≠ 0 then
        (List.range cols).foldl (fun b cc => setCell b r cc (cell g r c)) a
      else a) acc) (zeroGrid rws cols)

/-- `extend_v_lines` from dsl.rs (columnwise analogue of `extend_h_lines`). -/
def extend_v_lines (g : Grid) : Grid :=
  if g.isEmpty then g else
  let rws := rows g
  let cols := width g
  (List.range rws).foldl (fun acc r =>
    (List.range cols).foldl (fun a c =>
      if cell g r c ≠ 0 then
        (List.range rws).foldl (fun b rr => setCell b rr c (cell g r c)) a
      else a) acc) (zeroGrid rws cols)

/-- `extend_cross` from dsl.rs, expressed by the scan-order fold of the
in-place update loop. -/
def extend_cross (g : Grid) : Grid :=
  if g.isEmpty then g else
  let rws := rows g
  let cols := width g
  let pixels := (List.range rws).flatMap fun r =>
    (List.range cols).filterMap fun c =>
      if cell g r c ≠ 0 then some (r, c, cell g r c) else none
  pixels.foldl (fun acc (p : Nat × Nat × Nat) =>
    let (r, c, v) := p
    let acc := (List.range cols).foldl (fun a cc =>
      if cell a r cc = 0 then setCell a r cc v else a) acc
    (List.range rws).foldl (fun a rr =>
      if cell a rr c = 0 then setCell a rr c v else a) acc) g

/-- One diagonal walk used by `diag_fill_tl`/`diag_fill_tr`: from `(r,c)`
step by `(dr,dc)` while inside the grid, filling zero cells with `color`.
`fuel` dominates the walk length (rows + cols suffices). -/
def diagWalk (dr dc : Int) (rws cols : Nat) (color : Nat) :
    Nat → Int → Int → Grid → Grid
  | 0, _, _, acc => acc
  | fuel + 1, r, c, acc =>
    if 0 ≤ r ∧ r < (rws : Int) ∧ 0 ≤ c ∧ c < (cols : Int) then
      let acc := if cell acc r.toNat c.toNat = 0 then
        setCell acc r.toNat c.toNat color else acc
      diagWalk dr dc rws cols color fuel (r + dr) (c + dc) acc
    else acc

/-- `diag_fill_tl` from dsl.rs. -/
def diag_fill_tl (g : Grid) : Grid :=
  if g.isEmpty then g else
  let rws := rows g
  let cols := width g
  let pixels := (List.range rws).flatMap fun r =>
    (List.range cols).filterMap fun c =>
      if cell g r c ≠ 0 then some (r, c, cell g r c) else none
  pixels.foldl (fun acc (p : Nat × Nat × Nat) =>
    let (r, c, v) := p
    let acc := diagWalk 1 1 rws cols v (rws + cols)
      ((r : Int) + 1) ((c : Int) + 1) acc
    diagWalk (-1) (-1) rws cols v (rws + cols)
      ((r : Int) - 1) ((c : Int) - 1) acc) g

/-- `diag_fill_tr` from dsl.rs. -/
def diag_fill_tr (g : Grid) : Grid :=
  if g.isEmpty then g else
  let rws := rows g
  let cols := width g
  let pixels := (List.range rws).flatMap fun r =>
    (List.range cols).filterMap fun c =>
      if cell g r c ≠ 0 then some (r, c, cell g r c) else none
  pixels.foldl (fun acc (p : Nat × Nat × Nat) =>
    let (r, c, v) := p
    let acc := diagWalk 1 (-1) rws cols v (rws + cols)
      ((r : Int) + 1) ((c : Int) - 1) acc
    diagWalk (-1) 1 rws cols v (rws + cols)
      ((r : Int) - 1) ((c : Int) + 1) acc) g

/-- `upscale_objects` from dsl.rs: write a `factor × factor` block for each
non-zero cell into an all-zero `rows*factor × cols*factor` grid. -/
def upscale_objects (g : Grid) (factor : Nat) : Grid :=
  if g.isEmpty ∨ factor = 0 then g else
  let rws := rows g
  let cols := width g
  (List.range rws).foldl (fun acc r =>
    (List.range cols).foldl (fun a c =>
      if cell g r c ≠ 0 then
        (List.range factor).foldl (fun b dr =>
          (List.range factor).foldl (fun b2 dc =>
            setCell b2 (r * factor + dr) (c * factor + dc) (cell g r c)) b) a
      else a) acc) (zeroGrid (rws * factor) (cols * factor))

-- --- objects and DFS-based primitives from dsl.rs ---

/-- `Object` from dsl.rs. -/
structure Object where
  cells : List (Nat × Nat)
  color : Nat
  min_r : Nat
  min_c : Nat
  max_r : Nat
  max_c : Nat
deriving DecidableEq, Repr

/-- `Object::from_cells` from dsl.rs (`unwrap_or(0)` on empty). -/
def Object.from_cells (cells : List (Nat × Nat)) (color : Nat) : Object :=
  { cells := cells
    color := color
    min_r := ((cells.map Prod.fst).min?).getD 0
    min_c := ((cells.map Prod.snd).min?).getD 0
    max_r := ((cells.map Prod.fst).max?).getD 0
    max_c := ((cells.map Prod.snd).max?).getD 0 }

def Object.objWidth (o : Object) : Nat := o.max_c - o.min_c + 1

def Object.objHeight (o : Object) : Nat := o.max_r - o.min_r + 1

def Object.area (o : Object) : Nat := o.cells.length

/-- `Object::to_grid` from dsl.rs. -/
def Object.to_grid (o : Object) : Grid :=
  o.cells.foldl (fun g rc => setCell g (rc.1 - o.min_r) (rc.2 - o.min_c) o.color)
    (zeroGrid o.objHeight o.objWidth)

/-- Visited-matrix read (in bounds at every modelled call site). -/
def visGet (v : List (List Bool)) (r c : Nat) : Bool := (v.getD r []).getD c true

/-- Visited-matrix write. -/
def visSet (v : List (List Bool)) (r c : Nat) : List (List Bool) :=
  v.set r ((v.getD r []).set c true)

/-- The 4-neighborhood offsets `[(0,1),(0,-1),(1,0),(-1,0)]`. -/
def offsets4 : List (Int × Int) := [(0, 1), (0, -1), (1, 0), (-1, 0)]

/-- The `while let Some(..) = stack.pop()` loop of `connected_components`:
pop a cell, record it, and push unvisited equal-colored 4-neighbors (marking
them visited at push time).  `fuel` bounds the number of pops; since every
push marks a fresh cell, `rows*cols + 1` pops always suffice. -/
def componentLoop (g : Grid) (rws cols color : Nat) :
    Nat → List (List Bool) → List (Nat × Nat) → List (Nat × Nat) →
    List (List Bool) × List (Nat × Nat)
  | 0, visited, _, cellsAcc => (visited, cellsAcc)
  | _fuel + 1, visited, [], cellsAcc => (visited, cellsAcc)
  | fuel + 1, visited, rc :: rest, cellsAcc =>
    let cellsAcc := cellsAcc ++ [rc]
    let st := offsets4.foldl (fun (st : List (List Bool) × List (Nat × Nat)) d =>
      let nr := (rc.1 : Int) + d.1
      let nc := (rc.2 : Int) + d.2
      if 0 ≤ nr ∧ nr < (rws : Int) ∧ 0 ≤ nc ∧ nc < (cols : Int) then
        if visGet st.1 nr.toNat nc.toNat = false ∧ cell g nr.toNat nc.toNat = color then
          (visSet st.1 nr.toNat nc.toNat, (nr.toNat, nc.toNat) :: st.2)
        else st
      else st) (visited, rest)
    componentLoop g rws cols color fuel st.1 st.2 cellsAcc

/-- `connected_components` from dsl.rs (4-connected). -/
def connected_components (g : Grid) (ignore_bg : Bool) : List Object :=
  if g.isEmpty then [] else
  let rws := rows g
  let cols := width g
  let scan := (List.range rws).flatMap fun r => (List.range cols).map fun c => (r, c)
  (scan.foldl (fun (st : List (List Bool) × List Object) rc =>
    if visGet st.1 rc.1 rc.2 then st else
    let color := cell g rc.1 rc.2
    if ignore_bg ∧ color = 0 then st else
    let res := componentLoop g rws cols color (rws * cols + 1)
      (visSet st.1 rc.1 rc.2) [rc] []
    (res.1, st.2 ++ [Object.from_cells res.2 color]))
    (List.replicate rws (List.replicate cols false), [])).2

/-- `count_objects` from dsl.rs. -/
def count_objects (g : Grid) : Nat := (connected_components g true).length

/-- `extract_object` from dsl.rs. -/
def extract_object (g : Grid) (idx : Nat) : Grid :=
  let objects := connected_components g true
  match objects.get? idx with
  | none => g
  | some obj => obj.to_grid

/-- `keep_largest_object` from dsl.rs (`max_by_key`: last maximum wins). -/
def keep_largest_object (g : Grid) : Grid :=
  let objects := connected_components g true
  match maxByKeyLast Object.area objects with
  | some obj =>
    obj.cells.foldl (fun acc rc => setCell acc rc.1 rc.2 obj.color)
      (zeroGrid (grid_dimensions g).1 (grid_dimensions g).2)
  | none => g

/-- `keep_smallest_object` from dsl.rs (`min_by_key`: first minimum wins). -/
def keep_smallest_object (g : Grid) : Grid :=
  let objects := connected_components g true
  match minByKeyFirst Object.area objects with
  | some obj =>
    obj.cells.foldl (fun acc rc => setCell acc rc.1 rc.2 obj.color)
      (zeroGrid (grid_dimensions g).1 (grid_dimensions g).2)
  | none => g

/-- `outline_objects` from dsl.rs. -/
def outline_objects (g : Grid) (outline_color : Nat) : Grid :=
  if g.isEmpty then g else
  let rws := rows g
  let cols := width g
  (List.range rws).foldl (fun acc r =>
    (List.range cols).foldl (fun a c =>
      if cell g r c ≠ 0 then
        let on_border := offsets4.any fun d =>
          let nr := (r : Int) + d.1
          let nc := (c : Int) + d.2
          nr < 0 ∨ (rws : Int) ≤ nr ∨ nc < 0 ∨ (cols : Int) ≤ nc ∨
            cell g nr.toNat nc.toNat = 0
        if on_border then setCell a r c outline_color else a
      else a) acc) g

/-- The worklist of `flood_fill`: pop, recolor accepted neighbors (those still
holding `old_color`) and push them. -/
def floodLoop (rws cols old_color new_color : Nat) :
    Nat → Grid → List (Nat × Nat) → Grid
  | 0, result, _ => result
  | _fuel + 1, result, [] => result
  | fuel + 1, result, rc :: rest =>
    let st := offsets4.foldl (fun (st : Grid × List (Nat × Nat)) d =>
      let nr := (rc.1 : Int) + d.1
      let nc := (rc.2 : Int) + d.2
      if 0 ≤ nr ∧ nr < (rws : Int) ∧ 0 ≤ nc ∧ nc < (cols : Int) then
        if cell st.1 nr.toNat nc.toNat = old_color then
          (setCell st.1 nr.toNat nc.toNat new_color, (nr.toNat, nc.toNat) :: st.2)
        else st
      else st) (result, rest)
    floodLoop rws cols old_color new_color fuel st.1 st.2

/-- `flood_fill` from dsl.rs. -/
def flood_fill (g : Grid) (sr sc new_color : Nat) : Grid :=
  if g.isEmpty ∨ rows g ≤ sr ∨ width g ≤ sc then g else
  let old_color := cell g sr sc
  if old_color = new_color then g else
  floodLoop (rows g) (width g) old_color new_color (rows g * width g + 1)
    (setCell g sr sc new_color) [(sr, sc)]

/-- Border-reachability worklist shared by `fill_enclosed` and
`fill_inside_objects`: pop, mark and push unreached neighbors whose cell
value satisfies `ok`. -/
def reachLoop (g : Grid) (rws cols : Nat) (ok : Nat → Bool) :
    Nat → List (List Bool) → List (Nat × Nat) → List (List Bool)
  | 0, reach, _ => reach
  | _fuel + 1, reach, [] => reach
  | fuel + 1, reach, rc :: rest =>
    let st := offsets4.foldl (fun (st : List (List Bool) × List (Nat × Nat)) d =>
      let nr := (rc.1 : Int) + d.1
      let nc := (rc.2 : Int) + d.2
      if 0 ≤ nr ∧ nr < (rws : Int) ∧ 0 ≤ nc ∧ nc < (cols : Int) then
        if visGet st.1 nr.toNat nc.toNat = false ∧ ok (cell g nr.toNat nc.toNat) then
          (visSet st.1 nr.toNat nc.toNat, (nr.toNat, nc.toNat) :: st.2)
        else st
      else st) (reach, rest)
    reachLoop g rws cols ok fuel st.1 st.2

/-- Border cell predicate `r == 0 || r == rows-1 || c == 0 || c == cols-1`. -/
def isBorder (rws cols r c : Nat) : Bool :=
  r == 0 || r == rws - 1 || c == 0 || c == cols - 1

/-- `fill_enclosed` from dsl.rs: flood from non-wall border cells, then turn
unreached zero cells into wall color. -/
def fill_enclosed (g : Grid) (wall_color : Nat) : Grid :=
  if g.isEmpty then g else
  let rws := rows g
  let cols := width g
  let scan := (List.range rws).flatMap fun r => (List.range cols).map fun c => (r, c)
  let seeds := scan.foldl (fun (st : List (List Bool) × List (Nat × Nat)) rc =>
    if isBorder rws cols rc.1 rc.2 ∧ cell g rc.1 rc.2 ≠ wall_color then
      (visSet st.1 rc.1 rc.2, rc :: st.2)
    else st) (List.replicate rws (List.replicate cols false), [])
  let reach := reachLoop g rws cols (fun v => v ≠ wall_color)
    (2 * rws * cols + 1) seeds.1 seeds.2
  scan.foldl (fun acc rc =>
    if cell g rc.1 rc.2 = 0 ∧ visGet reach rc.1 rc.2 = false then
      setCell acc rc.1 rc.2 wall_color
    else acc) g

/-- `fill_inside_objects` from dsl.rs: flood from zero border cells, then fill
unreached zero cells with `fillc`. -/
def fill_inside_objects (g : Grid) (fillc : Nat) : Grid :=
  if g.isEmpty then g else
  let rws := rows g
  let cols := width g
  let scan := (List.range rws).flatMap fun r => (List.range cols).map fun c => (r, c)
  let seeds := scan.foldl (fun (st : List (List Bool) × List (Nat × Nat)) rc =>
    if isBorder rws cols rc.1 rc.2 ∧ cell g rc.1 rc.2 = 0 then
      (visSet st.1 rc.1 rc.2, rc :: st.2)
    else st) (List.replicate rws (List.replicate cols false), [])
  let reach := reachLoop g rws cols (fun v => v == 0)
    (2 * rws * cols + 1) seeds.1 seeds.2
  scan.foldl (fun acc rc =>
    if cell g rc.1 rc.2 = 0 ∧ visGet reach rc.1 rc.2 = false then
      setCell acc rc.1 rc.2 fillc
    else acc) g

-- --- the Prim DSL from dsl.rs ---

/-- `Prim` from dsl.rs: the closed catalog of primitives plus the two
composite forms. -/
inductive Prim where
  | Identity
  | RotateCW
  | RotateCCW
  | Rotate180
  | FlipH
  | FlipV
  | Transpose
  | FillColor (c : Nat)
  | ReplaceColor (a b : Nat)
  | Crop (r c h w : Nat)
  | Pad (n : Nat) (c : Nat)
  | Scale (s : Nat)
  | FilterColor (c : Nat)
  | GravityDown
  | GravityUp
  | GravityLeft
  | GravityRight
  | MostFrequentColor
  | BorderFill (c : Nat)
  | FloodFill (r c : Nat) (color : Nat)
  | ExtractObject (idx : Nat)
  | Overlay
  | MirrorH
  | MirrorV
  | RepeatH (n : Nat)
  | RepeatV (n : Nat)
  | Invert
  | SortRowsByColor
  | SortColsByColor
  | RemoveColor (c : Nat)
  | KeepLargestObject
  | KeepSmallestObject
  | OutlineObjects (c : Nat)
  | FillInsideObjects (c : Nat)
  | Translate (dr dc : Int)
  | CropToBBox
  | ExtendHLines
  | ExtendVLines
  | ExtendCross
  | DiagFillTL
  | DiagFillTR
  | FillEnclosed (wall : Nat)
  | UpscaleObjects (f : Nat)
  | Compose (a b : Prim)
  | Conditional (cond then_p else_p : Prim)
deriving DecidableEq, Repr

/-- `Prim::apply` from dsl.rs. -/
def Prim.apply : Prim → Grid → Grid
  | .Identity, g => g
  | .RotateCW, g => rotate_cw g
  | .RotateCCW, g => rotate_ccw g
  | .Rotate180, g => rotate_cw (rotate_cw g)
  | .FlipH, g => flip_h g
  | .FlipV, g => flip_v g
  | .Transpose, g => transposeG g
  | .FillColor c, g => fill_color g c
  | .ReplaceColor a b, g => replace_color g a b
  | .Crop r c h w, g => cropG g r c h w
  | .Pad n c, g => padG g n c
  | .Scale s, g => scaleG g s
  | .FilterColor c, g => filter_color g c
  | .GravityDown, g => gravity_down g
  | .GravityUp, g => flip_v (gravity_down (flip_v g))
  | .GravityLeft, g => transposeG (gravity_down (transposeG g))
  | .GravityRight, g => transposeG (flip_v (gravity_down (flip_v (transposeG g))))
  | .MostFrequentColor, g => most_frequent_fill g
  | .BorderFill c, g => border_fill g c
  | .FloodFill r c color, g => flood_fill g r c color
  | .ExtractObject idx, g => extract_object g idx
  | .Overlay, g => g
  | .MirrorH, g => mirror_h g
  | .MirrorV, g => mirror_v g
  | .RepeatH n, g => repeat_h g n
  | .RepeatV n, g => repeat_v g n
  | .Invert, g => invertG g
  | .SortRowsByColor, g => sort_rows_by_color g
  | .SortColsByColor, g => sort_cols_by_color g
  | .RemoveColor c, g => replace_color g c 0
  | .KeepLargestObject, g => keep_largest_object g
  | .KeepSmallestObject, g => keep_smallest_object g
  | .OutlineObjects c, g => outline_objects g c
  | .FillInsideObjects c, g => fill_inside_objects g c
  | .Translate dr dc, g => translateG g dr dc
  | .CropToBBox, g => crop_to_bbox g
  | .ExtendHLines, g => extend_h_lines g
  | .ExtendVLines, g => extend_v_lines g
  | .ExtendCross, g => extend_cross g
  | .DiagFillTL, g => diag_fill_tl g
  | .DiagFillTR, g => diag_fill_tr g
  | .FillEnclosed wall, g => fill_enclosed g wall
  | .UpscaleObjects f, g => upscale_objects g f
  | .Compose a b, g => b.apply (a.apply g)
  | .Conditional cond then_p else_p, g =>
    if cond.apply g ≠ g then then_p.apply g else else_p.apply g

/-- `Prim::size` from dsl.rs. -/
def Prim.size : Prim → Nat
  | .Compose a b => 1 + a.size + b.size
  | .Conditional a b c => 1 + a.size + b.size + c.size
  | _ => 1

/-- `Prim::all_primitives` from dsl.rs. -/
def Prim.all_primitives : List Prim :=
  [Prim.Identity, .RotateCW, .RotateCCW, .Rotate180,
   .FlipH, .FlipV, .Transpose,
   .GravityDown, .GravityUp, .GravityLeft, .GravityRight,
   .MirrorH, .MirrorV,
   .Invert, .SortRowsByColor, .SortColsByColor,
   .KeepLargestObject, .KeepSmallestObject,
   .CropToBBox, .ExtendHLines, .ExtendVLines, .ExtendCross,
   .DiagFillTL, .DiagFillTR]
  ++ ((List.range 10).flatMap fun c =>
    [Prim.FillColor c, .FilterColor c, .BorderFill c, .RemoveColor c,
     .OutlineObjects c, .FillInsideObjects c, .FillEnclosed c]
    ++ ((List.range 10).filterMap fun c2 =>
      if c ≠ c2 then some (Prim.ReplaceColor c c2) else none))
  ++ ([2, 3, 4].flatMap fun s =>
    [Prim.Scale s, .RepeatH s, .RepeatV s, .UpscaleObjects s])
  ++ ([-3, -2, -1, 1, 2, 3].flatMap fun d =>
    [Prim.Translate d 0, .Translate 0 d])

-- --- rectangularity machinery ---

/-- Row-length profile of a grid. -/
def rowLens (g : Grid) : List Nat := g.map List.length

theorem rowLens_setCell (g : Grid) (r c v : Nat) :
    rowLens (setCell g r c v) = rowLens g := by
  induction g generalizing r with
  | nil => rfl
  | cons h t ih =>
    cases r with
    | zero => simp [setCell, rowLens]
    | succ r =>
      simp only [setCell, List.getD_cons_succ, List.set_cons_succ, rowLens,
        List.map_cons, List.cons.injEq]
      exact ⟨trivial, by simpa [rowLens, setCell] using ih r⟩

theorem rect_of_uniform {g : Grid} {w : Nat}
    (h : ∀ row ∈ g, row.length = w) : Rect g := by
  intro row hr
  cases g with
  | nil => cases hr
  | cons a t =>
    have ha : a.length = w := h a (List.mem_cons_self a t)
    have : width (a :: t) = w := by simpa [width] using ha
    rw [this]; exact h row hr

theorem width_eq_of_rect {g : Grid} {w : Nat} (hne : g ≠ [])
    (h : ∀ row ∈ g, row.length = w) : width g = w := by
  cases g with
  | nil => exact absurd rfl hne
  | cons a t => simpa [width] using h a (List.mem_cons_self a t)

theorem rect_of_rowLens {g g' : Grid} (hl : rowLens g' = rowLens g)
    (hg : Rect g) : Rect g' := by
  have hmem : ∀ x ∈ rowLens g, x = width g := by
    intro x hx
    rcases List.mem_map.mp hx with ⟨row, hrow, rfl⟩
    exact hg row hrow
  apply rect_of_uniform (w := width g)
  intro row hr
  exact hmem _ (hl ▸ List.mem_map_of_mem List.length hr)

theorem rowLens_foldl {β : Type} {f : Grid → β → Grid}
    (h : ∀ a b, rowLens (f a b) = rowLens a) (l : List β) (init : Grid) :
    rowLens (l.foldl f init) = rowLens init := by
  induction l generalizing init with
  | nil => rfl
  | cons b bs ih => rw [List.foldl_cons, ih, h]

theorem rect_zeroGrid (rws cols : Nat) : Rect (zeroGrid rws cols) := by
  apply rect_of_uniform (w := cols)
  intro row hr
  simp [zeroGrid] at hr
  simp [hr.2]

theorem rect_map_of_length {α : Type} {l : List α} {f : α → List Nat} {w : Nat}
    (h : ∀ a ∈ l, (f a).length = w) : Rect (l.map f) := by
  apply rect_of_uniform (w := w)
  intro row hr
  rcases List.mem_map.mp hr with ⟨a, ha, rfl⟩
  exact h a ha

theorem rect_transposeG (g : Grid) : Rect (transposeG g) := by
  unfold transposeG
  split
  · intro row hr; simp_all
  · exact rect_map_of_length (w := g.length) fun a _ => by simp

theorem rect_rotate_cw (g : Grid) : Rect (rotate_cw g) := by
  unfold rotate_cw
  split
  · intro row hr; simp_all
  · exact rect_map_of_length (w := rows g) fun a _ => by simp

theorem rect_rotate_ccw (g : Grid) : Rect (rotate_ccw g) := by
  unfold rotate_ccw
  split
  · intro row hr; simp_all
  · exact rect_map_of_length (w := rows g) fun a _ => by simp

theorem rect_flip_h {g : Grid} (hg : Rect g) : Rect (flip_h g) := by
  apply rect_of_uniform (w := width g)
  intro row hr
  rcases List.mem_map.mp hr with ⟨a, ha, rfl⟩
  simpa using hg a ha

theorem rect_flip_v {g : Grid} (hg : Rect g) : Rect (flip_v g) := by
  apply rect_of_uniform (w := width g)
  intro row hr
  exact hg row (List.mem_reverse.mp hr)

theorem rect_map_rowmap {g : Grid} (f : List Nat → List Nat)
    (hf : ∀ row, (f row).length = row.length) (hg : Rect g) :
    Rect (g.map f) := by
  apply rect_of_uniform (w := width g)
  intro row hr
  rcases List.mem_map.mp hr with ⟨a, ha, rfl⟩
  rw [hf]; exact hg a ha

theorem mem_insertByKey {α : Type} (key : α → Nat) (x y : α) (l : List α)
    (h : y ∈ insertByKey key x l) : y = x ∨ y ∈ l := by
  induction l with
  | nil => simpa [insertByKey] using h
  | cons b bs ih =>
    rw [insertByKey] at h
    by_cases hc : key x ≤ key b
    · rw [if_pos hc] at h
      rcases List.mem_cons.mp h with h1 | h1
      · exact Or.inl h1
      · exact Or.inr h1
    · rw [if_neg hc] at h
      rcases List.mem_cons.mp h with h1 | h1
      · exact Or.inr (by simp [h1])
      · rcases ih h1 with h2 | h2
        · exact Or.inl h2
        · exact Or.inr (by simp [h2])

theorem mem_stableSortByKey {α : Type} (key : α → Nat) (l : List α) (y : α)
    (h : y ∈ stableSortByKey key l) : y ∈ l := by
  induction l with
  | nil => cases h
  | cons a t ih =>
    rw [stableSortByKey] at h
    rcases mem_insertByKey key a y _ h with h1 | h1
    · simp [h1]
    · exact List.mem_cons_of_mem a (ih h1)

theorem rect_stableSort {g : Grid} (key : List Nat → Nat) (hg : Rect g) :
    Rect (stableSortByKey key g) := by
  apply rect_of_uniform (w := width g)
  intro row hr
  exact hg row (mem_stableSortByKey key g row hr)

theorem rowLens_if_setCell (cond : Prop) [Decidable cond] (a : Grid) (r c v : Nat) :
    rowLens (if cond then setCell a r c v else a) = rowLens a := by
  split <;> simp [rowLens_setCell]

theorem rowLens_foldl_pair {β γ : Type} {f : Grid × γ → β → Grid × γ}
    (h : ∀ s b, rowLens (f s b).1 = rowLens s.1) (l : List β) (s : Grid × γ) :
    rowLens ((l.foldl f s).1) = rowLens s.1 := by
  induction l generalizing s with
  | nil => rfl
  | cons b bs ih => rw [List.foldl_cons, ih, h]

theorem rect_fill_color {g : Grid} (c : Nat) (hg : Rect g) : Rect (fill_color g c) :=
  rect_map_rowmap _ (fun row => by simp) hg

theorem rect_replace_color {g : Grid} (a b : Nat) (hg : Rect g) :
    Rect (replace_color g a b) :=
  rect_map_rowmap _ (fun row => by simp) hg

theorem rect_filter_color {g : Grid} (c : Nat) (hg : Rect g) : Rect (filter_color g c) :=
  rect_map_rowmap _ (fun row => by simp) hg

theorem rect_invertG {g : Grid} (hg : Rect g) : Rect (invertG g) :=
  rect_map_rowmap _ (fun row => by simp) hg

theorem rect_cropG {g : Grid} (r c h w : Nat) (hg : Rect g) : Rect (cropG g r c h w) := by
  apply rect_of_uniform (w := min w (width g - c))
  intro row hr
  unfold cropG at hr
  rcases List.mem_map.mp hr with ⟨a, ha, rfl⟩
  have : a ∈ g := List.mem_of_mem_drop (List.mem_of_mem_take ha)
  simp [hg a this]

theorem rect_padG {g : Grid} (n c : Nat) (hg : Rect g) : Rect (padG g n c) := by
  unfold padG
  split
  · intro row hr; simp_all
  · apply rect_of_uniform (w := width g + 2 * n)
    intro row hr
    simp only [List.mem_append, List.mem_replicate, List.mem_map] at hr
    rcases hr with (⟨_, rfl⟩ | ⟨a, ha, rfl⟩) | ⟨_, rfl⟩
    · simp
    · simp [hg a ha]; omega
    · simp

theorem rect_scaleG {g : Grid} (s : Nat) (hg : Rect g) : Rect (scaleG g s) := by
  apply rect_of_uniform (w := s * width g)
  intro row hr
  unfold scaleG at hr
  rcases List.mem_flatMap.mp hr with ⟨a, ha, hmem⟩
  rcases List.eq_of_mem_replicate hmem with rfl
  have hlen : ∀ a : List Nat, (a.flatMap fun c => List.replicate s c).length = s * a.length := by
    intro a
    induction a with
    | nil => simp
    | cons x xs ih =>
      rw [List.flatMap_cons, List.length_append, List.length_replicate, ih,
        List.length_cons]
      ring
  rw [hlen, hg a ha]

theorem rect_gravity_down (g : Grid) (hg : Rect g) : Rect (gravity_down g) := by
  unfold gravity_down
  split
  · exact hg
  · apply rect_of_rowLens _ (rect_zeroGrid (rows g) (width g))
    apply rowLens_foldl
    intro a b
    exact rowLens_foldl (fun a2 b2 => by simp [rowLens_setCell]) _ a

theorem rect_most_frequent_fill {g : Grid} (hg : Rect g) : Rect (most_frequent_fill g) :=
  rect_fill_color _ hg

theorem rect_border_fill {g : Grid} (c : Nat) (hg : Rect g) : Rect (border_fill g c) := by
  unfold border_fill
  split
  · exact hg
  · apply rect_of_rowLens _ hg
    rw [rowLens_foldl (fun a b => by simp [rowLens_setCell]),
      rowLens_foldl (fun a b => by simp [rowLens_setCell])]

theorem rect_mirror_h {g : Grid} (hg : Rect g) : Rect (mirror_h g) := by
  unfold mirror_h
  split
  · exact hg
  · apply rect_of_uniform (w := width g * 2)
    intro row hr
    rcases List.mem_map.mp hr with ⟨a, ha, rfl⟩
    simp [hg a ha]; omega

theorem rect_mirror_v {g : Grid} (hg : Rect g) : Rect (mirror_v g) := by
  apply rect_of_uniform (w := width g)
  intro row hr
  rcases List.mem_append.mp hr with h | h
  · exact hg row h
  · exact hg row (List.mem_reverse.mp h)

theorem rect_repeat_h {g : Grid} (n : Nat) (hg : Rect g) : Rect (repeat_h g n) := by
  apply rect_of_uniform (w := n * width g)
  intro row hr
  unfold repeat_h at hr
  rcases List.mem_map.mp hr with ⟨a, ha, rfl⟩
  simp [hg a ha]

theorem rect_repeat_v {g : Grid} (n : Nat) (hg : Rect g) : Rect (repeat_v g n) := by
  apply rect_of_uniform (w := width g)
  intro row hr
  unfold repeat_v at hr
  rcases List.mem_flatten.mp hr with ⟨a, ha, hmem⟩
  rcases List.eq_of_mem_replicate ha with rfl
  exact hg row hmem

theorem rowLens_floodLoop (rws cols oc nc : Nat) (fuel : Nat) (res : Grid)
    (stk : List (Nat × Nat)) :
    rowLens (floodLoop rws cols oc nc fuel res stk) = rowLens res := by
  induction fuel generalizing res stk with
  | zero => rfl
  | succ fuel ih =>
    cases stk with
    | nil => rfl
    | cons rc rest =>
      rw [floodLoop, ih]
      exact rowLens_foldl_pair (fun s b => by
        dsimp only
        split
        · split
          · simp [rowLens_setCell]
          · rfl
        · rfl) _ _

theorem rect_flood_fill {g : Grid} (sr sc c : Nat) (hg : Rect g) :
    Rect (flood_fill g sr sc c) := by
  unfold flood_fill
  split
  · exact hg
  · dsimp only
    split
    · exact hg
    · exact rect_of_rowLens (by rw [rowLens_floodLoop, rowLens_setCell]) hg

theorem rect_to_grid (o : Object) : Rect o.to_grid := by
  unfold Object.to_grid
  apply rect_of_rowLens _ (rect_zeroGrid o.objHeight o.objWidth)
  exact rowLens_foldl (fun a b => by simp [rowLens_setCell]) _ _

theorem rect_extract_object {g : Grid} (idx : Nat) (hg : Rect g) :
    Rect (extract_object g idx) := by
  unfold extract_object
  dsimp only
  split
  · exact hg
  · exact rect_to_grid _

theorem rect_keep_largest {g : Grid} (hg : Rect g) : Rect (keep_largest_object g) := by
  unfold keep_largest_object
  dsimp only
  split
  · apply rect_of_rowLens _ (rect_zeroGrid (grid_dimensions g).1 (grid_dimensions g).2)
    exact rowLens_foldl (fun a b => by simp [rowLens_setCell]) _ _
  · exact hg

theorem rect_keep_smallest {g : Grid} (hg : Rect g) : Rect (keep_smallest_object g) := by
  unfold keep_smallest_object
  dsimp only
  split
  · apply rect_of_rowLens _ (rect_zeroGrid (grid_dimensions g).1 (grid_dimensions g).2)
    exact rowLens_foldl (fun a b => by simp [rowLens_setCell]) _ _
  · exact hg

theorem rect_outline_objects {g : Grid} (c : Nat) (hg : Rect g) :
    Rect (outline_objects g c) := by
  unfold outline_objects
  split
  · exact hg
  · apply rect_of_rowLens _ hg
    apply rowLens_foldl
    intro a b
    apply rowLens_foldl
    intro a2 b2
    dsimp only
    split
    · exact rowLens_if_setCell _ _ _ _ _
    · rfl

theorem rect_fill_enclosed {g : Grid} (c : Nat) (hg : Rect g) :
    Rect (fill_enclosed g c) := by
  unfold fill_enclosed
  split
  · exact hg
  · apply rect_of_rowLens _ hg
    exact rowLens_foldl (fun a b => rowLens_if_setCell _ _ _ _ _) _ _

theorem rect_fill_inside {g : Grid} (c : Nat) (hg : Rect g) :
    Rect (fill_inside_objects g c) := by
  unfold fill_inside_objects
  split
  · exact hg
  · apply rect_of_rowLens _ hg
    exact rowLens_foldl (fun a b => rowLens_if_setCell _ _ _ _ _) _ _

theorem rect_translateG (g : Grid) (dr dc : Int) : Rect (translateG g dr dc) := by
  unfold translateG
  split
  · intro row hr; simp_all
  · apply rect_of_rowLens _ (rect_zeroGrid (rows g) (width g))
    apply rowLens_foldl
    intro a b
    apply rowLens_foldl
    intro a2 b2
    dsimp only
    split
    · exact rowLens_if_setCell _ _ _ _ _
    · rfl

theorem rect_crop_to_bbox {g : Grid} (hg : Rect g) : Rect (crop_to_bbox g) := by
  unfold crop_to_bbox
  split
  · exact hg
  · dsimp only
    split
    · intro row hr; simp_all [width]
    · exact rect_cropG _ _ _ _ hg

theorem rect_extend_h {g : Grid} (hg : Rect g) : Rect (extend_h_lines g) := by
  unfold extend_h_lines
  split
  · exact hg
  · apply rect_of_rowLens _ (rect_zeroGrid (rows g) (width g))
    apply rowLens_foldl
    intro a b
    apply rowLens_foldl
    intro a2 b2
    dsimp only
    split
    · exact rowLens_foldl (fun a3 b3 => by simp [rowLens_setCell]) _ _
    · rfl

theorem rect_extend_v {g : Grid} (hg : Rect g) : Rect (extend_v_lines g) := by
  unfold extend_v_lines
  split
  · exact hg
  · apply rect_of_rowLens _ (rect_zeroGrid (rows g) (width g))
    apply rowLens_foldl
    intro a b
    apply rowLens_foldl
    intro a2 b2
    dsimp only
    split
    · exact rowLens_foldl (fun a3 b3 => by simp [rowLens_setCell]) _ _
    · rfl

theorem rect_extend_cross {g : Grid} (hg : Rect g) : Rect (extend_cross g) := by
  unfold extend_cross
  split
  · exact hg
  · apply rect_of_rowLens _ hg
    apply rowLens_foldl
    intro a b
    dsimp only
    rw [rowLens_foldl (fun a3 b3 => by
      split <;> simp [rowLens_setCell])]
    exact rowLens_foldl (fun a3 b3 => by
      split <;> simp [rowLens_setCell]) _ _

theorem rowLens_diagWalk (dr dc : Int) (rws cols color fuel : Nat) (r c : Int)
    (acc : Grid) :
    rowLens (diagWalk dr dc rws cols color fuel r c acc) = rowLens acc := by
  induction fuel generalizing r c acc with
  | zero => rfl
  | succ fuel ih =>
    rw [diagWalk]
    split
    · rw [ih]
      exact rowLens_if_setCell _ _ _ _ _
    · rfl

theorem rect_diag_tl {g : Grid} (hg : Rect g) : Rect (diag_fill_tl g) := by
  unfold diag_fill_tl
  split
  · exact hg
  · apply rect_of_rowLens _ hg
    apply rowLens_foldl
    intro a b
    dsimp only
    rw [rowLens_diagWalk, rowLens_diagWalk]

theorem rect_diag_tr {g : Grid} (hg : Rect g) : Rect (diag_fill_tr g) := by
  unfold diag_fill_tr
  split
  · exact hg
  · apply rect_of_rowLens _ hg
    apply rowLens_foldl
    intro a b
    dsimp only
    rw [rowLens_diagWalk, rowLens_diagWalk]

theorem rect_upscale {g : Grid} (f : Nat) (hg : Rect g) : Rect (upscale_objects g f) := by
  unfold upscale_objects
  split
  · exact hg
  · apply rect_of_rowLens _ (rect_zeroGrid (rows g * f) (width g * f))
    apply rowLens_foldl
    intro a b
    apply rowLens_foldl
    intro a2 b2
    dsimp only
    split
    · exact rowLens_foldl (fun a3 b3 =>
        rowLens_foldl (fun a4 b4 => by simp [rowLens_setCell]) _ _) _ _
    · rfl

theorem rect_sort_rows {g : Grid} (hg : Rect g) : Rect (sort_rows_by_color g) :=
  rect_stableSort _ hg

theorem rect_sort_cols (g : Grid) : Rect (sort_cols_by_color g) :=
  rect_transposeG _

/-- Rectangularity is preserved by every primitive and composition (workhorse
behind the claim-level theorem; by structural induction over `Prim`). -/
theorem rect_apply (p : Prim) : ∀ g : Grid, Rect g → Rect (p.apply g) := by
  induction p with
  | Identity => exact fun g hg => hg
  | RotateCW => exact fun g _ => rect_rotate_cw g
  | RotateCCW => exact fun g _ => rect_rotate_ccw g
  | Rotate180 => exact fun g _ => rect_rotate_cw _
  | FlipH => exact fun g hg => rect_flip_h hg
  | FlipV => exact fun g hg => rect_flip_v hg
  | Transpose => exact fun g _ => rect_transposeG g
  | FillColor c => exact fun g hg => rect_fill_color c hg
  | ReplaceColor a b => exact fun g hg => rect_replace_color a b hg
  | Crop r c h w => exact fun g hg => rect_cropG r c h w hg
  | Pad n c => exact fun g hg => rect_padG n c hg
  | Scale s => exact fun g hg => rect_scaleG s hg
  | FilterColor c => exact fun g hg => rect_filter_color c hg
  | GravityDown => exact fun g hg => rect_gravity_down g hg
  | GravityUp => exact fun g hg => rect_flip_v (rect_gravity_down _ (rect_flip_v hg))
  | GravityLeft => exact fun g hg => rect_transposeG _
  | GravityRight => exact fun g hg => rect_transposeG _
  | MostFrequentColor => exact fun g hg => rect_most_frequent_fill hg
  | BorderFill c => exact fun g hg => rect_border_fill c hg
  | FloodFill r c color => exact fun g hg => rect_flood_fill r c color hg
  | ExtractObject idx => exact fun g hg => rect_extract_object idx hg
  | Overlay => exact fun g hg => hg
  | MirrorH => exact fun g hg => rect_mirror_h hg
  | MirrorV => exact fun g hg => rect_mirror_v hg
  | RepeatH n => exact fun g hg => rect_repeat_h n hg
  | RepeatV n => exact fun g hg => rect_repeat_v n hg
  | Invert => exact fun g hg => rect_invertG hg
  | SortRowsByColor => exact fun g hg => rect_sort_rows hg
  | SortColsByColor => exact fun g _ => rect_sort_cols g
  | RemoveColor c => exact fun g hg => rect_replace_color c 0 hg
  | KeepLargestObject => exact fun g hg => rect_keep_largest hg
  | KeepSmallestObject => exact fun g hg => rect_keep_smallest hg
  | OutlineObjects c => exact fun g hg => rect_outline_objects c hg
  | FillInsideObjects c => exact fun g hg => rect_fill_inside c hg
  | Translate dr dc => exact fun g _ => rect_translateG g dr dc
  | CropToBBox => exact fun g hg => rect_crop_to_bbox hg
  | ExtendHLines => exact fun g hg => rect_extend_h hg
  | ExtendVLines => exact fun g hg => rect_extend_v hg
  | ExtendCross => exact fun g hg => rect_extend_cross hg
  | DiagFillTL => exact fun g hg => rect_diag_tl hg
  | DiagFillTR => exact fun g hg => rect_diag_tr hg
  | FillEnclosed wall => exact fun g hg => rect_fill_enclosed wall hg
  | UpscaleObjects f => exact fun g hg => rect_upscale f hg
  | Compose a b iha ihb => exact fun g hg => ihb _ (iha _ hg)
  | Conditional c t e _ihc iht ihe =>
    intro g hg
    dsimp [Prim.apply]
    split
    · exact iht _ hg
    · exact ihe _ hg

-- --- MDL scorer from src/synthesis/compression.rs ---

/-- `description_length` from compression.rs.  The source `match` has no arms
for `Translate`, `CropToBBox`, `ExtendHLines`, `ExtendVLines`, `ExtendCross`,
`DiagFillTL`, `DiagFillTR`, `FillEnclosed` and `UpscaleObjects` (a
non-exhaustive match, which Rust rejects at compile time); those cases are
modelled as `none` (undefined). -/
def description_length : Prim → Option ℚ
  | .Identity => some 0
  | .Compose a b =>
    match description_length a, description_length b with
    | some x, some y => some (1 + x + y)
    | _, _ => none
  | .Conditional a b c =>
    match description_length a, description_length b, description_length c with
    | some x, some y, some z => some (2 + x + y + z)
    | _, _, _ => none
  | .RotateCW | .RotateCCW | .Rotate180
  | .FlipH | .FlipV | .Transpose
  | .GravityDown | .GravityUp
  | .GravityLeft | .GravityRight
  | .Invert | .SortRowsByColor | .SortColsByColor
  | .KeepLargestObject | .KeepSmallestObject
  | .MirrorH | .MirrorV | .Overlay
  | .MostFrequentColor => some 4
  | .FillColor _ | .FilterColor _
  | .RemoveColor _ | .BorderFill _ => some (4 + 33/10)
  | .ReplaceColor _ _ => some (4 + 66/10)
  | .OutlineObjects _ | .FillInsideObjects _ => some (4 + 33/10)
  | .Crop _ _ _ _ => some (4 + 12)
  | .Pad _ _ => some (4 + 6)
  | .Scale _ | .RepeatH _ | .RepeatV _ => some (4 + 2)
  | .FloodFill _ _ _ => some (4 + 9)
  | .ExtractObject _ => some (4 + 3)
  | _ => none

/-- Number of mismatched cells between two same-shaped grids (the
`zip/flat_map/filter/count` of `grid_error`). -/
def wrongCount (a b : Grid) : Nat :=
  ((a.zip b).map fun p => (p.1.zip p.2).countP fun q => !(q.1 == q.2)).sum

/-- `grid_error` from compression.rs. -/
def grid_error (actual expected : Grid) : ℚ :=
  if actual = expected then 0
  else if actual.length ≠ expected.length then 100
  else if actual.isEmpty then 0
  else if width actual ≠ width expected then 100
  else (wrongCount actual expected : ℚ) * (33/10)

/-- `data_fit` from compression.rs. -/
def data_fit (program : Prim) (examples : List (Grid × Grid)) : ℚ :=
  examples.foldl (fun acc pr => acc + grid_error (program.apply pr.1) pr.2) 0

/-- `mdl_score` from compression.rs (undefined whenever `description_length`
is, see there). -/
def mdl_score (program : Prim) (examples : List (Grid × Grid)) : Option ℚ :=
  (description_length program).map (· + data_fit program examples)

theorem grid_error_nonneg (a b : Grid) : 0 ≤ grid_error a b := by
  unfold grid_error
  repeat' split
  all_goals positivity

theorem data_fit_nonneg (p : Prim) (examples : List (Grid × Grid)) :
    0 ≤ data_fit p examples := by
  unfold data_fit
  suffices h : ∀ (init : ℚ), 0 ≤ init →
      0 ≤ examples.foldl (fun acc pr => acc + grid_error (p.apply pr.1) pr.2) init by
    exact h 0 le_rfl
  induction examples with
  | nil => intro init h; exact h
  | cons pr rest ih =>
    intro init h
    exact ih _ (add_nonneg h (grid_error_nonneg _ _))

theorem description_length_nonneg (p : Prim) :
    ∀ q, description_length p = some q → 0 ≤ q := by
  induction p <;> intro q h
  case Compose a b iha ihb =>
    rw [description_length] at h
    rcases ha : description_length a with _ | x <;> rw [ha] at h
    · cases h
    rcases hb : description_length b with _ | y <;> rw [hb] at h
    · cases h
    cases h
    have := iha x ha
    have := ihb y hb
    linarith
  case Conditional a b c iha ihb ihc =>
    rw [description_length] at h
    rcases ha : description_length a with _ | x <;> rw [ha] at h
    · cases h
    rcases hb : description_length b with _ | y <;> rw [hb] at h
    · cases h
    rcases hc : description_length c with _ | z <;> rw [hc] at h
    · cases h
    cases h
    have := iha x ha
    have := ihb y hb
    have := ihc z hc
    linarith
  all_goals simp only [description_length] at h
  all_goals first
  | exact Option.noConfusion h
  | (cases h; norm_num)

theorem row_eq_of_no_mismatch {x y : List Nat} (hl : x.length = y.length)
    (hc : (x.zip y).countP (fun q => !(q.1 == q.2)) = 0) : x = y := by
  induction x generalizing y with
  | nil =>
    cases y with
    | nil => rfl
    | cons b bs => cases hl
  | cons a as ih =>
    cases y with
    | nil => cases hl
    | cons b bs =>
      have hall := List.countP_eq_zero.mp hc
      have hab : a = b := by
        have := hall (a, b) (by simp)
        simpa using this
      subst hab
      congr 1
      apply ih (by simpa using hl)
      apply List.countP_eq_zero.mpr
      intro q hq
      exact hall q (by simp [List.zip_cons_cons, hq])

theorem wrongCount_cons (x y : List Nat) (xs ys : Grid) :
    wrongCount (x :: xs) (y :: ys)
      = (x.zip y).countP (fun q => !(q.1 == q.2)) + wrongCount xs ys := by
  unfold wrongCount
  rw [List.zip_cons_cons, List.map_cons, List.sum_cons]

theorem grid_eq_of_no_mismatch {w : Nat} :
    ∀ {a b : Grid}, (∀ r ∈ a, r.length = w) → (∀ r ∈ b, r.length = w) →
      a.length = b.length → wrongCount a b = 0 → a = b := by
  intro a
  induction a with
  | nil =>
    intro b _ _ hlen _
    cases b with
    | nil => rfl
    | cons y ys => cases hlen
  | cons x xs ih =>
    intro b ha hb hlen hc
    cases b with
    | nil => cases hlen
    | cons y ys =>
      rw [wrongCount_cons] at hc
      have h1 : (x.zip y).countP (fun q => !(q.1 == q.2)) = 0 := by omega
      have h2 : wrongCount xs ys = 0 := by omega
      have hxy : x = y := by
        apply row_eq_of_no_mismatch _ h1
        rw [ha x (List.mem_cons_self _ _), hb y (List.mem_cons_self _ _)]
      subst hxy
      congr 1
      exact ih (fun r hr => ha r (List.mem_cons_of_mem _ hr))
        (fun r hr => hb r (List.mem_cons_of_mem _ hr))
        (by simpa using hlen) h2

theorem grid_error_eq_zero_iff {a b : Grid} (ha : Rect a) (hb : Rect b) :
    grid_error a b = 0 ↔ a = b := by
  constructor
  · intro h
    unfold grid_error at h
    split at h
    · assumption
    · split at h
      · norm_num at h
      · split at h
        · rename_i hne hlen hemp
          exfalso
          apply hne
          have : a = [] := by simpa [List.isEmpty_iff] using hemp
          subst this
          have : b = [] := by
            cases b with
            | nil => rfl
            | cons _ _ => simp at hlen
          simp [this]
        · split at h
          · norm_num at h
          · rename_i hne hlen _ hwidth
            have hw : wrongCount a b = 0 := by
              by_contra hc
              have h1 : (1 : ℚ) ≤ (wrongCount a b : ℚ) := by
                exact_mod_cast Nat.one_le_iff_ne_zero.mpr hc
              nlinarith
            exact grid_eq_of_no_mismatch (w := width a) ha
              (fun r hr => by rw [hb r hr]; omega) (by omega) hw
  · intro h
    simp [grid_error, h]

/-- Per-pair exact reproduction. -/
def reproduces (p : Prim) (examples : List (Grid × Grid)) : Prop :=
  ∀ pr ∈ examples, p.apply pr.1 = pr.2

theorem data_fit_cons (p : Prim) (pr : Grid × Grid) (rest : List (Grid × Grid)) :
    data_fit p (pr :: rest) = grid_error (p.apply pr.1) pr.2 + data_fit p rest := by
  unfold data_fit
  rw [List.foldl_cons]
  have h : ∀ (l : List (Grid × Grid)) (x y : ℚ),
      l.foldl (fun acc q => acc + grid_error (p.apply q.1) q.2) (x + y)
        = x + l.foldl (fun acc q => acc + grid_error (p.apply q.1) q.2) y := by
    intro l
    induction l with
    | nil => intro x y; rfl
    | cons q qs ih =>
      intro x y
      rw [List.foldl_cons, List.foldl_cons, add_assoc, ih]
  simpa using h rest (grid_error (p.apply pr.1) pr.2) 0

theorem data_fit_eq_zero_iff (p : Prim) (examples : List (Grid × Grid))
    (hrect : ∀ pr ∈ examples, Rect pr.1 ∧ Rect pr.2) :
    data_fit p examples = 0 ↔ reproduces p examples := by
  induction examples with
  | nil => simp [data_fit, reproduces]
  | cons pr rest ih =>
    have hpr := hrect pr (List.mem_cons_self _ _)
    have hrest : ∀ q ∈ rest, Rect q.1 ∧ Rect q.2 :=
      fun q hq => hrect q (List.mem_cons_of_mem _ hq)
    rw [data_fit_cons]
    have hge := grid_error_nonneg (p.apply pr.1) pr.2
    have hfe := data_fit_nonneg p rest
    constructor
    · intro h
      have h1 : grid_error (p.apply pr.1) pr.2 = 0 := by linarith
      have h2 : data_fit p rest = 0 := by linarith
      intro q hq
      rcases List.mem_cons.mp hq with heq | hq'
      · subst heq
        exact (grid_error_eq_zero_iff (rect_apply p q.1 hpr.1) hpr.2).mp h1
      · exact (ih hrest).mp h2 q hq'
    · intro h
      have h1 : grid_error (p.apply pr.1) pr.2 = 0 := by
        rw [h pr (List.mem_cons_self _ _)]
        simp [grid_error]
      have h2 : data_fit p rest = 0 :=
        (ih hrest).mpr fun q hq => h q (List.mem_cons_of_mem _ hq)
      rw [h1, h2, add_zero]

/-- Claim C5 (counterexample): `FlipH` reproduces the training pair
`([[1,2]], [[2,1]])` exactly, its `data_fit` is 0, yet `mdl_score` is 4, not
0 — refuting the claimed equivalence `mdl_score == data_fit == 0 ⟺ exact
match` in its right-to-left direction. -/
theorem c5_counterexample :
    Prim.apply .FlipH [[1, 2]] = [[2, 1]]
      ∧ data_fit .FlipH [([[1, 2]], [[2, 1]])] = 0
      ∧ mdl_score .FlipH [([[1, 2]], [[2, 1]])] = some 4 := by
  refine ⟨by rfl, by with_unfolding_all decide, by with_unfolding_all decide⟩

/-- Claim C5 (amended): over rectangular example pairs, `data_fit` is 0 iff
the program reproduces every pair exactly; `mdl_score = some 0` together with
`data_fit = 0` still implies exact reproduction, but exact reproduction only
yields `data_fit = 0` and `mdl_score = description_length` (which is nonzero
for any non-`Identity` leaf, so the claimed converse fails). -/
theorem c5_amended (p : Prim) (examples : List (Grid × Grid))
    (hrect : ∀ pr ∈ examples, Rect pr.1 ∧ Rect pr.2) :
    (data_fit p examples = 0 ↔ reproduces p examples)
      ∧ (mdl_score p examples = some 0 → reproduces p examples)
      ∧ (reproduces p examples →
          data_fit p examples = 0 ∧ mdl_score p examples = description_length p) := by
  refine ⟨data_fit_eq_zero_iff p examples hrect, ?_, ?_⟩
  · intro h
    unfold mdl_score at h
    rcases hd : description_length p with _ | q <;> rw [hd] at h
    · cases h
    · have h2 : q + data_fit p examples = 0 := by simpa using h
      have hq := description_length_nonneg p q hd
      have hf := data_fit_nonneg p examples
      have : data_fit p examples = 0 := by linarith
      exact (data_fit_eq_zero_iff p examples hrect).mp this
  · intro h
    have h0 : data_fit p examples = 0 :=
      (data_fit_eq_zero_iff p examples hrect).mpr h
    refine ⟨h0, ?_⟩
    unfold mdl_score
    rw [h0]
    cases description_length p <;> simp

/-- Claim C5 witness: the amended statement applied to `FlipH` on the
concrete rectangular pair `([[1,2]], [[2,1]])`. -/
theorem c5_amended_witness :
    (∀ pr ∈ [(([[1, 2]] : Grid), ([[2, 1]] : Grid))], Rect pr.1 ∧ Rect pr.2)
      ∧ (data_fit .FlipH [([[1, 2]], [[2, 1]])] = 0 ↔
          reproduces .FlipH [([[1, 2]], [[2, 1]])]) :=
  ⟨by decide, (c5_amended .FlipH [([[1, 2]], [[2, 1]])] (by decide)).1⟩

/-- Claim C9: rectangularity is an invariant of `Prim::apply`: every program
maps a rectangular grid to a rectangular grid, hence every grid in any search
frontier reached from a rectangular input stays rectangular. -/
theorem c9_rectangularity_invariant (p : Prim) (g : Grid) (hg : Rect g) :
    Rect (p.apply g) :=
  rect_apply p g hg

/-- Claim C9 witness: instantiated on `RotateCW` at `[[1,2],[3,4]]`. -/
theorem c9_witness :
    Rect ([[1, 2], [3, 4]] : Grid) ∧ Rect (Prim.apply .RotateCW [[1, 2], [3, 4]]) :=
  ⟨by decide, c9_rectangularity_invariant .RotateCW [[1, 2], [3, 4]] (by decide)⟩

/-- Claim C4 (code-bug evidence): the one-row zero-width grid `[[]]` is
rectangular, yet applying `BorderFill` to it indexes `result[0][0]` on an
empty row — the checked model returns `none` (the Rust code panics), so
`apply` is not total on rectangular grids as claimed. -/
theorem c4_border_fill_out_of_bounds :
    Rect ([[]] : Grid) ∧ border_fill_checked [[]] 5 = none :=
  ⟨by decide, by rfl⟩

-- --- geometry roundtrip lemmas (for the declared inverses of bidir.rs) ---

theorem range_map_getD {α β : Type} (l : List α) (d : α) (f : α → β) :
    (List.range l.length).map (fun i => f (l.getD i d)) = l.map f := by
  induction l with
  | nil => rfl
  | cons x xs ih =>
    rw [List.length_cons, List.range_succ_eq_map, List.map_cons, List.map_cons,
      List.map_map]
    have h1 : ((fun i => f ((x :: xs).getD i d)) ∘ Nat.succ)
        = fun i => f (xs.getD i d) := by
      funext i
      simp
    rw [h1, ih]
    simp

theorem range_map_cell (g : Grid) (c : Nat) :
    (List.range (rows g)).map (fun r => cell g r c)
      = g.map (fun row => row.getD c 0) := by
  simpa [cell] using range_map_getD g [] (fun row => row.getD c 0)

theorem getD_map_of_lt {α β : Type} (l : List α) (f : α → β) {i : Nat}
    (h : i < l.length) (d : β) (d' : α) :
    (l.map f).getD i d = f (l.getD i d') := by
  rw [List.getD_eq_getElem?_getD, List.getD_eq_getElem?_getD, List.getElem?_map,
    List.getElem?_eq_getElem h]
  simp

theorem width_reverse {g : Grid} (hg : Rect g) : width g.reverse = width g := by
  rcases hrev : g.reverse with _ | ⟨h0, t0⟩
  · have : g = [] := by simpa using congrArg List.reverse hrev
    rw [this]
  · have hmem : h0 ∈ g := by
      have : h0 ∈ g.reverse := by rw [hrev]; exact List.mem_cons_self _ _
      exact List.mem_reverse.mp this
    have := hg h0 hmem
    simp [width, hrev, this]

theorem rotate_ccw_eq (g : Grid) : rotate_ccw g = (transposeG g).reverse := by
  unfold rotate_ccw transposeG
  split
  · rename_i h
    have : g = [] := by simpa using h
    subst this
    rfl
  · rw [← List.map_reverse]
    congr 1
    funext c
    have := range_map_cell g c
    simpa [rows] using this

theorem rotate_cw_eq {g : Grid} (hg : Rect g) :
    rotate_cw g = transposeG g.reverse := by
  unfold rotate_cw transposeG
  rcases hemp : g.isEmpty with _ | _
  · rw [if_neg (by simp [hemp]), if_neg (by simp_all)]
    rw [width_reverse hg]
    apply List.map_congr_left
    intro c _
    rw [List.map_reverse, List.map_reverse]
    congr 1
    have := range_map_cell g c
    simpa [rows] using this
  · have : g = [] := by simpa using hemp
    subst this
    rfl

theorem getD_mem_of_lt {α : Type} (l : List α) {i : Nat} (h : i < l.length) (d : α) :
    l.getD i d ∈ l := by
  rw [List.getD_eq_getElem?_getD, List.getElem?_eq_getElem h]
  exact List.getElem_mem _

theorem transpose_transpose {g : Grid} (hg : Rect g)
    (hw : g = [] ∨ 0 < width g) : transposeG (transposeG g) = g := by
  rcases hw with rfl | hw
  · rfl
  have hgne : g ≠ [] := by
    rintro rfl
    simp [width] at hw
  have hTlen : (transposeG g).length = width g := by
    unfold transposeG
    rw [if_neg (by simpa [List.isEmpty_iff] using hgne)]
    simp
  have hTne : transposeG g ≠ [] := by
    intro h
    rw [h] at hTlen
    simp at hTlen
    omega
  have hwT : width (transposeG g) = rows g := by
    unfold transposeG
    rw [if_neg (by simpa [List.isEmpty_iff] using hgne)]
    rcases hwpos : width g with _ | w'
    · omega
    · rw [List.range_succ_eq_map]
      simp [width, rows]
  conv_lhs => rw [transposeG]
  rw [if_neg (by simpa [List.isEmpty_iff] using hTne), hwT]
  have hcol : ∀ c, c < rows g →
      (transposeG g).map (fun row => row.getD c 0) = g.getD c [] := by
    intro c hc
    unfold transposeG
    rw [if_neg (by simpa [List.isEmpty_iff] using hgne), List.map_map]
    have h1 : ((fun row => row.getD c 0) ∘ fun k => g.map fun row => row.getD k 0)
        = fun k => cell g c k := by
      funext k
      simp only [Function.comp]
      rw [getD_map_of_lt g _ (by simpa [rows] using hc) 0 []]
      rfl
    rw [h1]
    have hlen : (g.getD c []).length = width g := hg _ (getD_mem_of_lt g (by simpa [rows] using hc) [])
    calc (List.range (width g)).map (fun k => cell g c k)
        = (List.range (g.getD c []).length).map (fun k => (g.getD c []).getD k 0) := by
          rw [hlen]; rfl
      _ = (g.getD c []).map id := range_map_getD _ 0 id
      _ = g.getD c [] := List.map_id _
  calc (List.range (rows g)).map (fun c => (transposeG g).map fun row => row.getD c 0)
      = (List.range (rows g)).map (fun c => g.getD c []) := by
        apply List.map_congr_left
        intro c hc
        exact hcol c (by simpa using List.mem_range.mp hc)
    _ = g.map id := range_map_getD g [] id
    _ = g := List.map_id g

theorem rect_and_nonempty_reverse {g : Grid} (hg : Rect g)
    (hw : g = [] ∨ 0 < width g) :
    Rect g.reverse ∧ (g.reverse = [] ∨ 0 < width g.reverse) := by
  refine ⟨rect_flip_v hg, ?_⟩
  rcases hw with rfl | hw
  · exact Or.inl rfl
  · right
    rw [width_reverse hg]
    exact hw

theorem ccw_of_cw {g : Grid} (hg : Rect g) (hw : g = [] ∨ 0 < width g) :
    rotate_ccw (rotate_cw g) = g := by
  rw [rotate_cw_eq hg, rotate_ccw_eq]
  have h := rect_and_nonempty_reverse hg hw
  rw [transpose_transpose h.1 h.2, List.reverse_reverse]

theorem cw_of_ccw {g : Grid} (hg : Rect g) (hw : g = [] ∨ 0 < width g) :
    rotate_cw (rotate_ccw g) = g := by
  rw [rotate_ccw_eq,
    rotate_cw_eq (show Rect ((transposeG g).reverse) from rect_flip_v (rect_transposeG g)),
    List.reverse_reverse]
  exact transpose_transpose hg hw

theorem transpose_rev_transpose {u : Grid} (hu : Rect u)
    (hw : u = [] ∨ 0 < width u) :
    transposeG ((transposeG u).reverse) = u.map List.reverse := by
  rcases hw with rfl | hw
  · rfl
  have hune : u ≠ [] := by
    rintro rfl
    simp [width] at hw
  have hTlen : (transposeG u).length = width u := by
    unfold transposeG
    rw [if_neg (by simpa [List.isEmpty_iff] using hune)]
    simp
  have hTne : (transposeG u).reverse ≠ [] := by
    intro h
    have : (transposeG u) = [] := by simpa using congrArg List.reverse h
    rw [this] at hTlen
    simp at hTlen
    omega
  have hrectT : Rect (transposeG u) := rect_transposeG u
  have hwT : width ((transposeG u).reverse) = rows u := by
    rw [width_reverse hrectT]
    unfold transposeG
    rw [if_neg (by simpa [List.isEmpty_iff] using hune)]
    rcases hwpos : width u with _ | w'
    · omega
    · rw [List.range_succ_eq_map]
      simp [width, rows]
  conv_lhs => rw [transposeG]
  rw [if_neg (by simpa [List.isEmpty_iff] using hTne), hwT]
  have hcol : ∀ c, c < rows u →
      ((transposeG u).reverse).map (fun row => row.getD c 0) = (u.getD c []).reverse := by
    intro c hc
    unfold transposeG
    rw [if_neg (by simpa [List.isEmpty_iff] using hune), List.map_reverse,
      List.map_map]
    have h1 : ((fun row => row.getD c 0) ∘ fun k => u.map fun row => row.getD k 0)
        = fun k => cell u c k := by
      funext k
      simp only [Function.comp]
      rw [getD_map_of_lt u _ (by simpa [rows] using hc) 0 []]
      rfl
    rw [h1]
    have hlen : (u.getD c []).length = width u :=
      hu _ (getD_mem_of_lt u (by simpa [rows] using hc) [])
    calc ((List.range (width u)).map fun k => cell u c k).reverse
        = ((List.range (u.getD c []).length).map fun k => (u.getD c []).getD k 0).reverse := by
          rw [hlen]; rfl
      _ = ((u.getD c []).map id).reverse := congrArg List.reverse (range_map_getD _ 0 id)
      _ = (u.getD c []).reverse := by rw [List.map_id]
  calc (List.range (rows u)).map (fun c => ((transposeG u).reverse).map fun row => row.getD c 0)
      = (List.range (rows u)).map (fun c => (u.getD c []).reverse) := by
        apply List.map_congr_left
        intro c hc
        exact hcol c (by simpa using List.mem_range.mp hc)
    _ = u.map List.reverse := range_map_getD u [] List.reverse

theorem cw_cw_closed {g : Grid} (hg : Rect g) (hw : g = [] ∨ 0 < width g) :
    rotate_cw (rotate_cw g) = g.reverse.map List.reverse := by
  rw [rotate_cw_eq hg, rotate_cw_eq (rect_transposeG g.reverse)]
  have h := rect_and_nonempty_reverse hg hw
  exact transpose_rev_transpose h.1 h.2

theorem rot180_rot180 {g : Grid} (hg : Rect g) (hw : g = [] ∨ 0 < width g) :
    rotate_cw (rotate_cw (rotate_cw (rotate_cw g))) = g := by
  rw [cw_cw_closed hg hw]
  have hg2 : Rect (g.reverse.map List.reverse) := by
    apply rect_of_uniform (w := width g)
    intro row hr
    rcases List.mem_map.mp hr with ⟨a, ha, rfl⟩
    simpa using hg a (List.mem_reverse.mp ha)
  have hwmap : ∀ x : Grid, width (x.map List.reverse) = width x := by
    intro x
    cases x <;> simp [width]
  have hw2 : g.reverse.map List.reverse = [] ∨ 0 < width (g.reverse.map List.reverse) := by
    rcases hw with rfl | hw
    · exact Or.inl rfl
    · right
      rw [hwmap, width_reverse hg]
      exact hw
  rw [cw_cw_closed hg2 hw2, List.map_reverse, List.map_map]
  have hid : (List.reverse ∘ List.reverse : List Nat → List Nat) = id := by
    funext l
    simp
  rw [hid, List.map_id, List.reverse_reverse]

theorem flip_h_flip_h (g : Grid) : flip_h (flip_h g) = g := by
  unfold flip_h
  rw [List.map_map]
  have : (List.reverse ∘ List.reverse : List Nat → List Nat) = id := by
    funext l
    simp
  rw [this, List.map_id]

theorem flip_v_flip_v (g : Grid) : flip_v (flip_v g) = g := by
  simp [flip_v]

theorem replace_color_roundtrip {g : Grid} (a b : Nat)
    (hfree : ∀ row ∈ g, ∀ v ∈ row, v ≠ b) :
    replace_color (replace_color g a b) b a = g := by
  unfold replace_color
  rw [List.map_map]
  have hrow : ∀ row ∈ g,
      ((fun row => List.map (fun c => if c = b then a else c) row)
        ∘ fun row => List.map (fun c => if c = a then b else c) row) row = row := by
    intro row hmem
    simp only [Function.comp]
    rw [List.map_map]
    have hcell : ∀ v ∈ row,
        ((fun c => if c = b then a else c) ∘ fun c => if c = a then b else c) v = v := by
      intro v hv
      have hvb := hfree row hmem v hv
      simp only [Function.comp]
      by_cases hva : v = a
      · subst hva
        simp
      · rw [if_neg hva, if_neg hvb]
    calc row.map _ = row.map id := List.map_congr_left hcell
      _ = row := List.map_id row
  calc g.map _ = g.map id := List.map_congr_left hrow
    _ = g := List.map_id g

-- --- `inverse` from src/synthesis/bidir.rs ---

/-- `inverse` from bidir.rs: the declared inverse of a primitive, when any. -/
def inverse : Prim → Option Prim
  | .RotateCW => some .RotateCCW
  | .RotateCCW => some .RotateCW
  | .Rotate180 => some .Rotate180
  | .FlipH => some .FlipH
  | .FlipV => some .FlipV
  | .Transpose => some .Transpose
  | .Invert => some .Invert
  | .Identity => some .Identity
  | .ReplaceColor a b => some (.ReplaceColor b a)
  | _ => none

/-- Claim C3 (counterexample): `ReplaceColor(1,2)` has declared inverse
`ReplaceColor(2,1)`, but on the compatible (1×1, rectangular) grid `[[2]]`
the roundtrip gives `[[1]] ≠ [[2]]`; so the claimed
`apply(P′, apply(P, G)) == G` fails as stated. -/
theorem c3_counterexample :
    inverse (Prim.ReplaceColor 1 2) = some (Prim.ReplaceColor 2 1)
      ∧ Rect ([[2]] : Grid)
      ∧ Prim.apply (.ReplaceColor 2 1) (Prim.apply (.ReplaceColor 1 2) [[2]]) ≠ [[2]] := by
  refine ⟨rfl, by decide, by decide⟩

/-- Claim C3 (amended): for every primitive `P` with declared inverse `P′`
other than `Invert`, and every rectangular grid `G` with no zero-width rows
degeneracy (`G = []` or positive width), `apply(P′, apply(P, G)) = G` — with
the extra proviso for `ReplaceColor(a,b)` that `G` contains no cell of color
`b`.  (`Invert` is not an involution — e.g. on `[[1,2]]` — and
`ReplaceColor(b,a)` overwrites pre-existing `b` cells, which is what the
counterexample exhibits.) -/
theorem c3_amended (P P' : Prim) (g : Grid)
    (hinv : inverse P = some P')
    (hninv : P ≠ .Invert)
    (hrect : Rect g) (hw : g = [] ∨ 0 < width g)
    (hrepl : ∀ a b, P = .ReplaceColor a b → ∀ row ∈ g, ∀ v ∈ row, v ≠ b) :
    P'.apply (P.apply g) = g := by
  cases P
  case RotateCW =>
    cases hinv
    exact ccw_of_cw hrect hw
  case RotateCCW =>
    cases hinv
    exact cw_of_ccw hrect hw
  case Rotate180 =>
    cases hinv
    exact rot180_rot180 hrect hw
  case FlipH =>
    cases hinv
    exact flip_h_flip_h g
  case FlipV =>
    cases hinv
    exact flip_v_flip_v g
  case Transpose =>
    cases hinv
    exact transpose_transpose hrect hw
  case Invert => exact absurd rfl hninv
  case Identity =>
    cases hinv
    rfl
  case ReplaceColor a b =>
    cases hinv
    exact replace_color_roundtrip a b (hrepl a b rfl)
  all_goals cases hinv

/-- Claim C3 witness: the amended statement applied to `RotateCW` on
`[[1,2],[3,4]]`. -/
theorem c3_amended_witness :
    inverse Prim.RotateCW = some Prim.RotateCCW
      ∧ Rect ([[1, 2], [3, 4]] : Grid)
      ∧ Prim.apply .RotateCCW (Prim.apply .RotateCW [[1, 2], [3, 4]]) = [[1, 2], [3, 4]] :=
  ⟨rfl, by decide,
    c3_amended .RotateCW .RotateCCW [[1, 2], [3, 4]] rfl (by decide) (by decide)
      (Or.inr (by decide)) (by intro a b h; cases h)⟩

-- --- feature profiler and primitive selector from src/synthesis/heuristics.rs ---

/-- `DimChange` from heuristics.rs. -/
inductive DimChange where
  | Same
  | Scaled (rf cf : Nat)
  | Transposed
  | Cropped
  | Padded
  | Arbitrary
deriving DecidableEq, Repr

/-- `ColorChange` from heuristics.rs. -/
inductive ColorChange where
  | Same
  | Bijection
  | Reduction
  | Expansion
  | Complex
deriving DecidableEq, Repr

/-- `FeatureProfile` from heuristics.rs. -/
structure FeatureProfile where
  dim_change : DimChange
  color_change : ColorChange
  object_delta : Int
  input_symmetric_h : Bool
  input_symmetric_v : Bool
  output_symmetric_h : Bool
  output_symmetric_v : Bool
  input_period_h : Option Nat
  input_period_v : Option Nat
  output_period_h : Option Nat
  output_period_v : Option Nat
  same_grid : Bool
  input_colors : List Nat
  output_colors : List Nat
  input_dims : Nat × Nat
  output_dims : Nat × Nat
deriving DecidableEq, Repr

/-- `classify_dim_change` from heuristics.rs. -/
def classify_dim_change (in_d out_d : Nat × Nat) : DimChange :=
  if in_d = out_d then .Same
  else if in_d.1 = out_d.2 ∧ in_d.2 = out_d.1 then .Transposed
  else if 0 < out_d.1 ∧ 0 < out_d.2 ∧ 0 < in_d.1 ∧ 0 < in_d.2
      ∧ out_d.1 % in_d.1 = 0 ∧ out_d.2 % in_d.2 = 0
      ∧ (1 < out_d.1 / in_d.1 ∨ 1 < out_d.2 / in_d.2) then
    .Scaled (out_d.1 / in_d.1) (out_d.2 / in_d.2)
  else if out_d.1 < in_d.1 ∨ out_d.2 < in_d.2 then .Cropped
  else if in_d.1 < out_d.1 ∨ in_d.2 < out_d.2 then .Padded
  else .Arbitrary

/-- `classify_color_change` from heuristics.rs (hash-set cardinality modelled
by the deduplicated length). -/
def classify_color_change (in_c out_c : List Nat) : ColorChange :=
  if in_c = out_c then .Same
  else
    let ins := in_c.dedup.length
    let outs := out_c.dedup.length
    if ins = outs then .Bijection
    else if outs < ins then .Reduction
    else if ins < outs then .Expansion
    else .Complex

/-- `default_profile` from heuristics.rs. -/
def default_profile : FeatureProfile :=
  { dim_change := .Same
    color_change := .Same
    object_delta := 0
    input_symmetric_h := false
    input_symmetric_v := false
    output_symmetric_h := false
    output_symmetric_v := false
    input_period_h := none
    input_period_v := none
    output_period_h := none
    output_period_v := none
    same_grid := true
    input_colors := []
    output_colors := []
    input_dims := (0, 0)
    output_dims := (0, 0) }

/-- `analyze_features` from heuristics.rs. -/
def analyze_features (examples : List (Grid × Grid)) : FeatureProfile :=
  match examples with
  | [] => default_profile
  | (input, output) :: _ =>
    let in_dims := grid_dimensions input
    let out_dims := grid_dimensions output
    let in_colors := unique_colors input
    let out_colors := unique_colors output
    let in_objs := (connected_components input true).length
    let out_objs := (connected_components output true).length
    { dim_change := classify_dim_change in_dims out_dims
      color_change := classify_color_change in_colors out_colors
      object_delta := (out_objs : Int) - (in_objs : Int)
      input_symmetric_h := is_symmetric_h input
      input_symmetric_v := is_symmetric_v input
      output_symmetric_h := is_symmetric_h output
      output_symmetric_v := is_symmetric_v output
      input_period_h := detect_period_h input
      input_period_v := detect_period_v input
      output_period_h := detect_period_h output
      output_period_v := detect_period_v output
      same_grid := input == output
      input_colors := in_colors
      output_colors := out_colors
      input_dims := in_dims
      output_dims := out_dims }

/-- `add_color_ops` from heuristics.rs. -/
def add_color_ops (in_colors out_colors : List Nat) : List Prim :=
  in_colors.flatMap fun ic =>
    (out_colors.filterMap fun oc =>
      if ic ≠ oc then some (Prim.ReplaceColor ic oc) else none)
    ++ [Prim.FilterColor ic, Prim.FillColor ic]

/-- `dedup_prims` from heuristics.rs: deduplication by (structural) hash,
modelled as structural first-occurrence deduplication (faithful whenever the
64-bit FxHash has no collision on the few dozen selected primitives). -/
def dedup_prims (prims : List Prim) : List Prim :=
  prims.foldl (fun acc p => if p ∈ acc then acc else acc ++ [p]) []

/-- `select_primitives` from heuristics.rs. -/
def select_primitives (profile : FeatureProfile) : List Prim :=
  let prims : List Prim := [Prim.Identity]
  let prims := prims ++ (match profile.dim_change with
    | .Same =>
      [Prim.RotateCW, .RotateCCW, .Rotate180, .FlipH, .FlipV,
       .GravityDown, .GravityUp, .GravityLeft, .GravityRight,
       .Invert, .SortRowsByColor, .SortColsByColor,
       .KeepLargestObject, .KeepSmallestObject,
       .ExtendHLines, .ExtendVLines, .ExtendCross,
       .DiagFillTL, .DiagFillTR]
      ++ ([-2, -1, 1, 2].flatMap fun d => [Prim.Translate d 0, .Translate 0 d])
      ++ add_color_ops profile.input_colors profile.output_colors
    | .Transposed => [Prim.Transpose, .RotateCW, .RotateCCW]
    | .Scaled rf cf =>
      ([2, 3, 4].flatMap fun s => [Prim.Scale s, .RepeatH s, .RepeatV s])
      ++ (if rf = cf then [Prim.Scale rf] else [])
      ++ [Prim.MirrorH, .MirrorV]
    | .Cropped =>
      [Prim.KeepLargestObject, .KeepSmallestObject, .CropToBBox]
      ++ (List.range 5).map Prim.ExtractObject
    | .Padded =>
      ((List.range 10).flatMap fun c => [Prim.Pad 1 c, .BorderFill c])
      ++ [Prim.MirrorH, .MirrorV]
    | .Arbitrary =>
      [Prim.KeepLargestObject, .KeepSmallestObject, .Transpose]
      ++ (List.range 3).map Prim.ExtractObject)
  let prims := prims ++
    (if profile.output_symmetric_h ∧ ¬profile.input_symmetric_h then
      [Prim.MirrorH, .FlipH] else [])
  let prims := prims ++
    (if profile.output_symmetric_v ∧ ¬profile.input_symmetric_v then
      [Prim.MirrorV, .FlipV] else [])
  let prims := prims ++
    (if profile.object_delta < 0 then
      [Prim.KeepLargestObject, .KeepSmallestObject]
      ++ (List.range 10).map Prim.RemoveColor
    else [])
  let prims := prims ++
    (if 0 < profile.object_delta then
      (List.range 10).flatMap fun c =>
        [Prim.OutlineObjects c, .FillInsideObjects c]
    else [])
  let prims := prims ++ (match profile.color_change with
    | .Bijection =>
      profile.input_colors.flatMap fun ic =>
        profile.output_colors.filterMap fun oc =>
          if ic ≠ oc then some (Prim.ReplaceColor ic oc) else none
    | .Reduction =>
      profile.input_colors.flatMap fun c =>
        if c ∉ profile.output_colors then
          Prim.RemoveColor c ::
            profile.output_colors.map fun oc => Prim.ReplaceColor c oc
        else []
    | .Expansion =>
      (profile.output_colors.flatMap fun c =>
        if c ∉ profile.input_colors then
          [Prim.FillColor c, .BorderFill c, .OutlineObjects c, .FillInsideObjects c]
        else [])
      ++ profile.input_colors.map Prim.FillEnclosed
    | _ => [])
  dedup_prims prims

/-- Claim C10: `classify_color_change` never returns `Complex`: the vector
equality test and the three set-cardinality comparisons are exhaustive. -/
theorem c10_complex_unreachable (in_c out_c : List Nat) :
    classify_color_change in_c out_c ≠ ColorChange.Complex := by
  unfold classify_color_change
  dsimp only
  split
  · intro h
    cases h
  · split
    · intro h
      cases h
    · split
      · intro h
        cases h
      · split
        · intro h
          cases h
        · omega

-- --- brute-force enumeration from src/synthesis/enumerate.rs ---

/-- `matches_all` from enumerate.rs (also the shape used in arc.rs). -/
def matches_all (program : Prim) (examples : List (Grid × Grid)) : Bool :=
  examples.all fun pr => program.apply pr.1 == pr.2

/-- Number of equal cells between two same-shaped grids. -/
def matchingCount (a b : Grid) : Nat :=
  ((a.zip b).map fun p => (p.1.zip p.2).countP fun q => q.1 == q.2).sum

/-- `grid_similarity` from enumerate.rs. -/
def grid_similarityE (a b : Grid) : ℚ :=
  if a.length ≠ b.length then 0
  else if a.isEmpty then 1
  else if width a ≠ width b then 0
  else
    let total := a.length * width a
    if total = 0 then 1
    else (matchingCount a b : ℚ) / total

/-- `partial_match_score` from enumerate.rs (mean per-cell match fraction). -/
def match_score (program : Prim) (examples : List (Grid × Grid)) : ℚ :=
  if examples.isEmpty then 0
  else (examples.map fun pr => grid_similarityE (program.apply pr.1) pr.2).sum
    / examples.length

/-- `SynthesisResult` from enumerate.rs. -/
structure SynthesisResult where
  program : Prim
  size : Nat
  checked : Nat
deriving DecidableEq, Repr

/-- Depth-1 loop of `synthesize`. -/
def synth1 (examples : List (Grid × Grid)) :
    List Prim → Nat → Option SynthesisResult × Nat
  | [], checked => (none, checked)
  | p :: rest, checked =>
    let checked := checked + 1
    if matches_all p examples then
      (some ⟨p, p.size, checked⟩, checked)
    else synth1 examples rest checked

/-- Inner (b) loop of the depth-2 phase of `synthesize`. -/
def synth2Inner (examples : List (Grid × Grid)) (a : Prim) :
    List Prim → Nat → Option SynthesisResult × Nat
  | [], checked => (none, checked)
  | b :: rest, checked =>
    let checked := checked + 1
    let composed := Prim.Compose a b
    if matches_all composed examples then
      (some ⟨composed, composed.size, checked⟩, checked)
    else synth2Inner examples a rest checked

/-- Outer (a) loop of the depth-2 phase of `synthesize`: the 100,000-check
break is polled after each full inner loop. -/
def synth2 (examples : List (Grid × Grid)) (allP : List Prim) :
    List Prim → Nat → Option SynthesisResult × Nat
  | [], checked => (none, checked)
  | a :: rest, checked =>
    match synth2Inner examples a allP checked with
    | (some r, c) => (some r, c)
    | (none, c) => if 100000 < c then (none, c) else synth2 examples allP rest c

/-- The depth-3 candidate pool of `synthesize`: the first 20 primitives in
catalog order whose mean per-cell match fraction exceeds 0.3 (note: a
filter + take, not a ranking). -/
def top_singles (examples : List (Grid × Grid)) (prims : List Prim) : List Prim :=
  (prims.filter fun p => (3 : ℚ)/10 < match_score p examples).take 20

/-- Depth-3 loop of `synthesize` over the triple product, with the 500,000
cap checked after every candidate. -/
def synth3 (examples : List (Grid × Grid)) :
    List (Prim × Prim × Prim) → Nat → Option SynthesisResult × Nat
  | [], checked => (none, checked)
  | t :: rest, checked =>
    let checked := checked + 1
    let prog := Prim.Compose t.1 (Prim.Compose t.2.1 t.2.2)
    if matches_all prog examples then
      (some ⟨prog, prog.size, checked⟩, checked)
    else if 500000 < checked then (none, checked)
    else synth3 examples rest checked

/-- The depth-3 triple pool of `synthesize` (the three nested loops over
`top_singles`). -/
def depth3Triples (examples : List (Grid × Grid)) : List (Prim × Prim × Prim) :=
  let tops := top_singles examples Prim.all_primitives
  tops.flatMap fun a => tops.flatMap fun b => tops.map fun c => (a, b, c)

/-- `synthesize` from enumerate.rs. -/
def synthesize (examples : List (Grid × Grid)) (max_size : Nat) :
    Option SynthesisResult :=
  match synth1 examples Prim.all_primitives 0 with
  | (some r, _) => some r
  | (none, checked1) =>
    match (if 2 ≤ max_size then
        synth2 examples Prim.all_primitives Prim.all_primitives checked1
      else (none, checked1)) with
    | (some r, _) => some r
    | (none, checked2) =>
      if 3 ≤ max_size then (synth3 examples (depth3Triples examples) checked2).1
      else none

/-- Stable descending insertion by a rational key (models Rust's stable
`sort_by(|a, b| b.key.partial_cmp(&a.key))`). -/
def insertDescBy {α : Type} (key : α → ℚ) (x : α) : List α → List α
  | [] => [x]
  | y :: ys => if key y ≤ key x then x :: y :: ys else y :: insertDescBy key x ys

/-- Stable sort, descending by a rational key. -/
def sortDescBy {α : Type} (key : α → ℚ) : List α → List α
  | [] => []
  | x :: xs => insertDescBy key x (sortDescBy key xs)

/-- `bottom_up_enumerate` from enumerate.rs. -/
def bottom_up_enumerate (examples : List (Grid × Grid)) (max_programs : Nat) :
    List (Prim × ℚ) :=
  let prims := Prim.all_primitives
  let ranked := (prims.map fun p => (p, match_score p examples)).filter
    fun pr => 0 < pr.2
  (sortDescBy (fun pr : Prim × ℚ => pr.2) ranked).take max_programs

/-- The concrete example pair used to refute the claimed ranking of the
depth-3 pool. -/
def rankCounterexampleExamples : List (Grid × Grid) :=
  [([[2, 2, 2], [2, 1, 2], [2, 2, 2]], [[2, 2, 2], [2, 0, 2], [2, 2, 2]])]

/-- Modelled from the spec: the depth-3 candidate pool as the spec words it —
"the top 20 primitives of the full catalog ranked by mean per-cell match
fraction across the example pairs" (stable descending rank, then take 20). -/
def specTop20 (examples : List (Grid × Grid)) : List Prim :=
  ((sortDescBy (fun pr : Prim × ℚ => pr.2)
    ((Prim.all_primitives).map fun p => (p, match_score p examples))).map
      Prod.fst).take 20

theorem synth1_sound (examples : List (Grid × Grid)) :
    ∀ (prims : List Prim) (checked : Nat) (r : SynthesisResult),
      (synth1 examples prims checked).1 = some r →
      matches_all r.program examples = true ∧ r.program ∈ prims := by
  intro prims
  induction prims with
  | nil => intro checked r h; cases h
  | cons p rest ih =>
    intro checked r h
    rw [synth1] at h
    split at h
    · rename_i hm
      cases h
      exact ⟨hm, List.mem_cons_self _ _⟩
    · rcases ih _ r h with ⟨h1, h2⟩
      exact ⟨h1, List.mem_cons_of_mem _ h2⟩

theorem synth2Inner_sound (examples : List (Grid × Grid)) (a : Prim) :
    ∀ (bs : List Prim) (checked : Nat) (r : SynthesisResult),
      (synth2Inner examples a bs checked).1 = some r →
      matches_all r.program examples = true
        ∧ ∃ b ∈ bs, r.program = Prim.Compose a b := by
  intro bs
  induction bs with
  | nil => intro checked r h; cases h
  | cons b rest ih =>
    intro checked r h
    rw [synth2Inner] at h
    split at h
    · rename_i hm
      cases h
      exact ⟨hm, b, List.mem_cons_self _ _, rfl⟩
    · rcases ih _ r h with ⟨h1, b', hb', h2⟩
      exact ⟨h1, b', List.mem_cons_of_mem _ hb', h2⟩

theorem synth2_sound (examples : List (Grid × Grid)) (allP : List Prim) :
    ∀ (as' : List Prim) (checked : Nat) (r : SynthesisResult),
      (synth2 examples allP as' checked).1 = some r →
      matches_all r.program examples = true
        ∧ ∃ a ∈ as', ∃ b ∈ allP, r.program = Prim.Compose a b := by
  intro as'
  induction as' with
  | nil => intro checked r h; cases h
  | cons a rest ih =>
    intro checked r h
    rw [synth2] at h
    rcases hinner : synth2Inner examples a allP checked with ⟨ores, c⟩
    rw [hinner] at h
    cases ores with
    | some r' =>
      have heq : r' = r := by simpa using h
      subst heq
      rcases synth2Inner_sound examples a allP checked r' (by rw [hinner]) with ⟨h1, b, hb, h2⟩
      exact ⟨h1, a, List.mem_cons_self _ _, b, hb, h2⟩
    | none =>
      dsimp only at h
      split at h
      · cases h
      · rcases ih _ r h with ⟨h1, a', ha', b, hb, h2⟩
        exact ⟨h1, a', List.mem_cons_of_mem _ ha', b, hb, h2⟩

theorem synth3_sound (examples : List (Grid × Grid)) :
    ∀ (ts : List (Prim × Prim × Prim)) (checked : Nat) (r : SynthesisResult),
      (synth3 examples ts checked).1 = some r →
      matches_all r.program examples = true
        ∧ ∃ t ∈ ts, r.program = Prim.Compose t.1 (Prim.Compose t.2.1 t.2.2) := by
  intro ts
  induction ts with
  | nil => intro checked r h; cases h
  | cons t rest ih =>
    intro checked r h
    rw [synth3] at h
    split at h
    · rename_i hm
      cases h
      exact ⟨hm, t, List.mem_cons_self _ _, rfl⟩
    · split at h
      · cases h
      · rcases ih _ r h with ⟨h1, t', ht', h2⟩
        exact ⟨h1, t', List.mem_cons_of_mem _ ht', h2⟩

theorem synth3_cap (examples : List (Grid × Grid))
    (ts : List (Prim × Prim × Prim)) (checked : Nat) (r : SynthesisResult)
    (hc : 500000 ≤ checked) (h : (synth3 examples ts checked).1 = some r) :
    r.checked = checked + 1 := by
  cases ts with
  | nil => cases h
  | cons t rest =>
    rw [synth3] at h
    split at h
    · cases h
      rfl
    · split at h
      · cases h
      · rename_i hlt
        exfalso
        omega

/-- Claim C6 (counterexample): on the single training pair
`([[2,2,2],[2,1,2],[2,2,2]], [[2,2,2],[2,0,2],[2,2,2]])`, `RemoveColor 1`
scores a perfect 1 (strictly above `Identity`'s 8/9) and therefore belongs to
every "top 20 ranked by mean per-cell match fraction" (here `specTop20`,
modelled from the spec's words), yet the code's depth-3 pool — the first 20
catalog primitives whose score exceeds 0.3 — excludes it while including
`Identity`.  The depth-3 triples are therefore not drawn from the claimed
ranked top 20. -/
theorem c6_counterexample :
    Prim.RemoveColor 1 ∈ specTop20 rankCounterexampleExamples
      ∧ Prim.RemoveColor 1 ∉ top_singles rankCounterexampleExamples Prim.all_primitives
      ∧ Prim.Identity ∈ top_singles rankCounterexampleExamples Prim.all_primitives
      ∧ match_score Prim.Identity rankCounterexampleExamples
          < match_score (Prim.RemoveColor 1) rankCounterexampleExamples := by
  with_unfolding_all decide

/-- Claim C6 (amended): any result of `synthesize` matches every example
exactly and is either a catalog primitive (depth 1), a pair composition over
the catalog (depth 2), or a triple composition whose three components all
come from `top_singles` — the FIRST 20 primitives in catalog order whose mean
per-cell match fraction exceeds 0.3 (not a ranked top 20); and once the
running check counter has reached the 500,000 cap, the depth-3 loop examines
at most one further candidate: it either returns that matching candidate or
aborts with no result. -/
theorem c6_amended :
    (∀ (examples : List (Grid × Grid)) (max_size : Nat) (r : SynthesisResult),
      synthesize examples max_size = some r →
      matches_all r.program examples = true
        ∧ (r.program ∈ Prim.all_primitives
          ∨ (∃ a ∈ Prim.all_primitives, ∃ b ∈ Prim.all_primitives,
              r.program = Prim.Compose a b)
          ∨ (∃ a ∈ top_singles examples Prim.all_primitives,
             ∃ b ∈ top_singles examples Prim.all_primitives,
             ∃ c ∈ top_singles examples Prim.all_primitives,
              r.program = Prim.Compose a (Prim.Compose b c))))
    ∧ (∀ (examples : List (Grid × Grid)) (ts : List (Prim × Prim × Prim))
        (checked : Nat) (r : SynthesisResult),
        500000 ≤ checked → (synth3 examples ts checked).1 = some r →
        r.checked = checked + 1) := by
  constructor
  · intro examples max_size r h
    unfold synthesize at h
    rcases h1 : synth1 examples Prim.all_primitives 0 with ⟨o1, c1⟩
    rw [h1] at h
    cases o1 with
    | some r1 =>
      have heq : r1 = r := by simpa using h
      subst heq
      rcases synth1_sound examples _ 0 r1 (by rw [h1]) with ⟨hm, hmem⟩
      exact ⟨hm, Or.inl hmem⟩
    | none =>
      dsimp only at h
      rcases h2 : (if 2 ≤ max_size then
          synth2 examples Prim.all_primitives Prim.all_primitives c1
        else (none, c1)) with ⟨o2, c2⟩
      rw [h2] at h
      cases o2 with
      | some r2 =>
        have heq : r2 = r := by simpa using h
        subst heq
        have hs2 : (synth2 examples Prim.all_primitives Prim.all_primitives c1).1 = some r2 := by
          by_cases hms : 2 ≤ max_size
          · rw [if_pos hms] at h2
            rw [h2]
          · rw [if_neg hms] at h2
            cases h2
        rcases synth2_sound examples _ _ c1 r2 hs2 with ⟨hm, a, ha, b, hb, heq⟩
        exact ⟨hm, Or.inr (Or.inl ⟨a, ha, b, hb, heq⟩)⟩
      | none =>
        dsimp only at h
        split at h
        · rcases synth3_sound examples _ c2 r h with ⟨hm, t, ht, heq⟩
          rw [depth3Triples] at ht
          rcases List.mem_flatMap.mp ht with ⟨a, ha, hta⟩
          rcases List.mem_flatMap.mp hta with ⟨b, hb, htb⟩
          rcases List.mem_map.mp htb with ⟨c, hc, hrfl⟩
          refine ⟨hm, Or.inr (Or.inr ⟨a, ha, b, hb, c, hc, ?_⟩)⟩
          rw [heq, ← hrfl]
        · cases h
  · exact fun examples ts checked r hc h => synth3_cap examples ts checked r hc h

/-- Claim C6 witness: `synthesize` on `([[1,2]], [[2,1]])` with `max_size 1`
returns `Rotate180` after 4 checks (a depth-1 catalog member that matches),
and a depth-3 run that starts at the cap returns its single matching
candidate with counter 500,001. -/
theorem c6_amended_witness :
    (synthesize [([[1, 2]], [[2, 1]])] 1
        = some ⟨.Rotate180, 1, 4⟩
      ∧ matches_all (Prim.Rotate180) [([[1, 2]], [[2, 1]])] = true)
    ∧ ((synth3 [([[1, 2]], [[2, 1]])] [(.Rotate180, .Identity, .Identity)] 500000).1
        = some ⟨.Compose .Rotate180 (.Compose .Identity .Identity), 5, 500001⟩
      ∧ (⟨.Compose .Rotate180 (.Compose .Identity .Identity), 5,
          500001⟩ : SynthesisResult).checked = 500000 + 1) := by
  have h1 : synthesize [([[1, 2]], [[2, 1]])] 1 = some ⟨.Rotate180, 1, 4⟩ := by
    with_unfolding_all decide
  have h3 : (synth3 [([[1, 2]], [[2, 1]])]
      [(.Rotate180, .Identity, .Identity)] 500000).1
      = some ⟨.Compose .Rotate180 (.Compose .Identity .Identity), 5, 500001⟩ := by
    decide
  refine ⟨⟨h1, ((c6_amended.1 _ 1 _ h1).1 : _)⟩, h3, ?_⟩
  exact c6_amended.2 [([[1, 2]], [[2, 1]])] _ 500000 _ (le_refl _) h3

-- --- genetic evolution from src/synthesis/evolve.rs ---

/-- `Individual` from evolve.rs. -/
structure Individual where
  program : Prim
  fitness : ℚ
  generation : Nat
deriving DecidableEq, Repr

/-- `grid_similarity` from evolve.rs (differs from the enumerate.rs variant:
an empty grid scores 0, not 1). -/
def grid_similarityV (a b : Grid) : ℚ :=
  if a.length ≠ b.length ∨ a.isEmpty then 0
  else if width a ≠ width b then 0
  else
    let total := a.length * width a
    if total = 0 then 1
    else (matchingCount a b : ℚ) / total

/-- `eval_fitness` from evolve.rs. -/
def eval_fitness (program : Prim) (examples : List (Grid × Grid)) : ℚ :=
  if examples.isEmpty then 0
  else
    let accuracy := (examples.map fun pr =>
      grid_similarityV (program.apply pr.1) pr.2).sum / examples.length
    let size_penalty := 1 / (1 + (program.size : ℚ) * (1/100))
    accuracy * (95/100) + size_penalty * (5/100)

/-- `crossover` from evolve.rs. -/
def crossover (a b : Prim) : Prim := Prim.Compose a b

/-- `mutate` from evolve.rs (size-seeded pseudo-deterministic choice). -/
def mutate (p : Prim) : Prim :=
  let prims := Prim.all_primitives
  let idx := (p.size * 7 + 13) % prims.length
  match p with
  | .Compose a _ => .Compose a (prims.getD idx .Identity)
  | _ =>
    if p.size < 3 then .Compose p (prims.getD idx .Identity)
    else prims.getD idx .Identity

/-- The population-padding `while` loop of `evolve` (fills with catalog
primitives round-robin, scored by `eval_fitness`). -/
def padPopulation (examples : List (Grid × Grid)) (population_size : Nat) :
    Nat → List Individual → List Individual
  | 0, pop => pop
  | fuel + 1, pop =>
    if pop.length < population_size then
      let prims := Prim.all_primitives
      let idx := pop.length % prims.length
      let p := prims.getD idx .Identity
      padPopulation examples population_size fuel
        (pop ++ [⟨p, eval_fitness p examples, 0⟩])
    else pop

/-- The seeded-and-padded initial population of `evolve`. -/
def initial_population (examples : List (Grid × Grid)) (population_size : Nat) :
    List Individual :=
  let seeds := bottom_up_enumerate examples (population_size / 2)
  padPopulation examples population_size population_size
    (seeds.map fun pr => ⟨pr.1, pr.2, 0⟩)

/-- The breeding `while` loop of one generation of `evolve`.  (`% 0` when
`elite_count = 0`, i.e. `population_size < 4`, panics in Rust; every modelled
run has `population_size ≥ 4` or returns before breeding.) -/
def breed (examples : List (Grid × Grid)) (population : List Individual)
    (population_size elite_count gen : Nat) :
    Nat → List Individual → List Individual
  | 0, next_gen => next_gen
  | fuel + 1, next_gen =>
    if next_gen.length < population_size then
      let pa := population.getD (next_gen.length % elite_count) ⟨.Identity, 0, 0⟩
      let pb := population.getD ((next_gen.length + 1) % elite_count) ⟨.Identity, 0, 0⟩
      let child := mutate (crossover pa.program pb.program)
      breed examples population population_size elite_count gen fuel
        (next_gen ++ [⟨child, eval_fitness child examples, gen + 1⟩])
    else next_gen

/-- `f64::EPSILON`. -/
def epsF64 : ℚ := 1 / 2 ^ 52

/-- The per-generation loop of `evolve`: sort descending by fitness, return
the best as solved when its fitness reaches `1 - ε`, else keep the top
quarter and breed. -/
def evolveLoop (examples : List (Grid × Grid)) (population_size : Nat) :
    Nat → Nat → List Individual → Option Individual
  | 0, _gen, population =>
    (sortDescBy Individual.fitness population).head?
  | gensLeft + 1, gen, population =>
    let sorted := sortDescBy Individual.fitness population
    if 1 - epsF64 ≤ (sorted.headD ⟨.Identity, 0, 0⟩).fitness then
      sorted.head?
    else
      let elite_count := population_size / 4
      let next_gen := sorted.take elite_count
      evolveLoop examples population_size gensLeft (gen + 1)
        (breed examples sorted population_size elite_count gen
          population_size next_gen)

/-- `evolve` from evolve.rs. -/
def evolve (examples : List (Grid × Grid)) (population_size generations : Nat) :
    Option Individual :=
  evolveLoop examples population_size generations 0
    (initial_population examples population_size)

/-- Claim C7 (counterexample): on `([[1]], [[1]])` with population size 2 the
first seeded individual is `Identity` carrying its raw partial-match score 1
as fitness, which differs from the claimed blended formula
`0.95·accuracy + 0.05/(1+0.01·size) = 2019/2020`; so not every individual's
fitness equals the claimed formula. -/
theorem c7_counterexample :
    (initial_population [([[1]], [[1]])] 2).head? = some ⟨.Identity, 1, 0⟩
      ∧ eval_fitness .Identity [([[1]], [[1]])] = 2019/2020
      ∧ (1 : ℚ) ≠ 2019/2020 := by
  refine ⟨by with_unfolding_all decide, by with_unfolding_all decide,
    by norm_num⟩

theorem breed_fitness (examples : List (Grid × Grid))
    (population : List Individual) (population_size elite_count gen : Nat) :
    ∀ (fuel : Nat) (next_gen : List Individual),
      ∀ ind ∈ breed examples population population_size elite_count gen fuel next_gen,
        ind ∈ next_gen ∨ ind.fitness = eval_fitness ind.program examples := by
  intro fuel
  induction fuel with
  | zero => intro next_gen ind h; exact Or.inl h
  | succ fuel ih =>
    intro next_gen ind h
    rw [breed] at h
    split at h
    · rcases ih _ ind h with hmem | hfit
      · rcases List.mem_append.mp hmem with hmem' | hmem'
        · exact Or.inl hmem'
        · right
          rcases List.mem_singleton.mp hmem' with rfl
          rfl
      · exact Or.inr hfit
    · exact Or.inl h

theorem evolveLoop_early_return (examples : List (Grid × Grid))
    (population_size gensLeft gen : Nat) (population : List Individual)
    (h : 1 - epsF64 ≤
      ((sortDescBy Individual.fitness population).headD ⟨.Identity, 0, 0⟩).fitness) :
    evolveLoop examples population_size (gensLeft + 1) gen population
      = (sortDescBy Individual.fitness population).head? := by
  rw [evolveLoop, if_pos h]

/-- Claim C7 (amended): seeded individuals carry their raw partial-match
score as fitness (see the counterexample), while every individual produced
by breeding carries `eval_fitness`, i.e. 0.95 × mean per-cell match fraction
+ 0.05 × 1/(1+0.01·size); each generation first stable-sorts the population
descending by fitness and, when the best fitness reaches `1 - 2⁻⁵²` (the
code's `>= 1.0 - f64::EPSILON` test), returns that best individual as solved
before any breeding; this early return is taken e.g. on `([[1]], [[1]])`
with population 2, where `evolve` returns the perfectly-scoring `Identity`
seed in generation 0. -/
theorem c7_amended :
    (∀ (examples : List (Grid × Grid)) (population : List Individual)
        (population_size elite_count gen fuel : Nat) (next_gen : List Individual),
      ∀ ind ∈ breed examples population population_size elite_count gen fuel next_gen,
        ind ∈ next_gen ∨ ind.fitness = eval_fitness ind.program examples)
    ∧ (∀ (examples : List (Grid × Grid)) (population_size gensLeft gen : Nat)
        (population : List Individual),
        1 - epsF64 ≤
          ((sortDescBy Individual.fitness population).headD ⟨.Identity, 0, 0⟩).fitness →
        evolveLoop examples population_size (gensLeft + 1) gen population
          = (sortDescBy Individual.fitness population).head?)
    ∧ evolve [([[1]], [[1]])] 2 5 = some ⟨.Identity, 1, 0⟩ := by
  refine ⟨?_, ?_, ?_⟩
  · intro examples population population_size elite_count gen fuel next_gen
    exact breed_fitness examples population population_size elite_count gen fuel next_gen
  · intro examples population_size gensLeft gen population h
    exact evolveLoop_early_return examples population_size gensLeft gen population h
  · with_unfolding_all decide

/-- Claim C7 witness: the amended statement instantiated on a concrete bred
generation and a concrete early-returning population. -/
theorem c7_amended_witness :
    (∀ ind ∈ breed [([[1]], [[1]])] [⟨.FlipH, 1, 0⟩] 2 1 0 2 [],
        ind ∈ ([] : List Individual)
          ∨ ind.fitness = eval_fitness ind.program [([[1]], [[1]])])
    ∧ (1 - epsF64 ≤
        ((sortDescBy Individual.fitness [⟨.FlipH, 1, 0⟩]).headD
          ⟨.Identity, 0, 0⟩).fitness
      ∧ evolveLoop [([[1]], [[1]])] 2 1 0 [⟨.FlipH, 1, 0⟩]
          = (sortDescBy Individual.fitness [⟨.FlipH, 1, 0⟩]).head?) :=
  ⟨c7_amended.1 [([[1]], [[1]])] [⟨.FlipH, 1, 0⟩] 2 1 0 2 [],
   by with_unfolding_all decide,
   c7_amended.2.1 [([[1]], [[1]])] 2 0 0 [⟨.FlipH, 1, 0⟩]
     (by with_unfolding_all decide)⟩

/-! ## Bidirectional search (src/synthesis/bidir.rs)

`grid_hash` is the FNV-style 64-bit fingerprint; u64 wrapping arithmetic is
modelled as `Nat` arithmetic reduced `% 2 ^ 64`.  The Rust frontiers are
`FxHashMap<u64, BidirNode>`; we model them as association lists keyed by the
hash, with `FxHashMap::insert`/`get`/`contains_key` semantics.  Insertions only
happen after a negative `contains_key` test, so append-insert is faithful.  The
frontier-iteration order (used to collect `current`) is modelled as insertion
order; in every run appearing in a theorem below the iterated snapshot has at
most one element, so the model agrees with any iteration order the hash map
could exhibit. -/

def grid_hash (g : Grid) : Nat :=
  g.enum.foldl (fun h rp =>
    rp.2.enum.foldl (fun h2 cp =>
      let cellh := ((rp.1 * 0x517cc1b727220a95) % 2 ^ 64)
        ^^^ ((cp.1 * 0x6c62272e07bb0142) % 2 ^ 64) ^^^ (cp.2 % 2 ^ 64)
      ((h2 * 0x100000001b3) % 2 ^ 64) ^^^ cellh) h) 0xcbf29ce484222325

def invertible_subset (prims : List Prim) : List (Prim × Prim) :=
  prims.filterMap (fun p => (inverse p).map (fun inv => (p, inv)))

structure BidirNode where
  grid : Grid
  program : Prim
  depth : Nat
deriving DecidableEq, Repr

structure BidirResult where
  program : Prim
  method : String
  forward_depth : Nat
  backward_depth : Nat
  nodes_explored : Nat
deriving DecidableEq, Repr

/-- Association-list model of the `FxHashMap<u64, BidirNode>` frontiers. -/
abbrev Frontier := List (Nat × BidirNode)

def fget (m : Frontier) (k : Nat) : Option BidirNode :=
  (m.find? (fun p => p.1 == k)).map (fun p => p.2)

def compose_programs (existing next : Prim) : Prim :=
  match existing with
  | .Identity => next
  | _ => .Compose existing next

def invert_program : Prim → Prim
  | .Compose a b => .Compose (invert_program b) (invert_program a)
  | other => (inverse other).getD other

/-- Outcome of an expansion loop: a meeting point was found (`found`), the
node cap fired an early `return None` (`halted`, which aborts the remaining
iterations of the expansion but not the search), or the loop ran to
completion (`normal`). -/
inductive ExpandStep where
  | found (r : BidirResult)
  | halted
  | normal
deriving DecidableEq, Repr

/-- Inner loop of `expand_forward`: iterate the primitives for one frontier
node `(g, prog)` of depth `depth`. -/
def expandForwardPrims (maxNodes : Nat) (backward : Frontier) (g : Grid)
    (prog : Prim) (depth : Nat) :
    List Prim → Frontier → Nat → ExpandStep × Frontier × Nat
  | [], fwd, total => (.normal, fwd, total)
  | prim :: rest, fwd, total =>
    let result := prim.apply g
    let result_fp := grid_hash result
    let meet := match fget backward result_fp with
      | some bn => if result = bn.grid then some bn else none
      | none => none
    match meet with
    | some back_node =>
      let forward_prog := compose_programs prog prim
      let full_prog := if back_node.depth = 0 then forward_prog
        else .Compose forward_prog (invert_program back_node.program)
      (.found ⟨full_prog, "bidirectional", depth + 1, back_node.depth, total⟩,
        fwd, total)
    | none =>
      if (fget fwd result_fp).isSome then
        expandForwardPrims maxNodes backward g prog depth rest fwd total
      else if result = g then
        expandForwardPrims maxNodes backward g prog depth rest fwd total
      else
        let fwd2 := fwd ++ [(result_fp, ⟨result, compose_programs prog prim, depth + 1⟩)]
        let total2 := total + 1
        if maxNodes ≤ total2 then (.halted, fwd2, total2)
        else expandForwardPrims maxNodes backward g prog depth rest fwd2 total2

/-- Outer loop of `expand_forward` over the snapshot of current-depth nodes. -/
def expandForwardNodes (maxNodes : Nat) (backward : Frontier) (prims : List Prim)
    (depth : Nat) :
    List (Grid × Prim) → Frontier → Nat → ExpandStep × Frontier × Nat
  | [], fwd, total => (.normal, fwd, total)
  | (g, prog) :: rest, fwd, total =>
    match expandForwardPrims maxNodes backward g prog depth prims fwd total with
    | (.normal, fwd2, total2) =>
        expandForwardNodes maxNodes backward prims depth rest fwd2 total2
    | st => st

def expand_forward (maxNodes : Nat) (forward backward : Frontier)
    (prims : List Prim) (depth total : Nat) : ExpandStep × Frontier × Nat :=
  let current := (forward.filter (fun p => p.2.depth == depth)).map
    (fun p => (p.2.grid, p.2.program))
  expandForwardNodes maxNodes backward prims depth current forward total

/-- Inner loop of `expand_backward` for one backward node `(g, back_prog)`. -/
def expandBackwardPrims (maxNodes : Nat) (forward : Frontier) (g : Grid)
    (back_prog : Prim) (depth : Nat) :
    List (Prim × Prim) → Frontier → Nat → ExpandStep × Frontier × Nat
  | [], bwd, total => (.normal, bwd, total)
  | (forward_prim, inv_prim) :: rest, bwd, total =>
    let result := inv_prim.apply g
    let result_fp := grid_hash result
    let meet := match fget forward result_fp with
      | some fn => if result = fn.grid then some fn else none
      | none => none
    match meet with
    | some fwd_node =>
      let back_forward := compose_programs back_prog forward_prim
      let full_prog := if fwd_node.depth = 0 then invert_program back_forward
        else .Compose fwd_node.program (invert_program back_forward)
      (.found ⟨full_prog, "bidirectional", fwd_node.depth, depth + 1, total⟩,
        bwd, total)
    | none =>
      if (fget bwd result_fp).isSome then
        expandBackwardPrims maxNodes forward g back_prog depth rest bwd total
      else if result = g then
        expandBackwardPrims maxNodes forward g back_prog depth rest bwd total
      else
        let bwd2 := bwd ++
          [(result_fp, ⟨result, compose_programs back_prog forward_prim, depth + 1⟩)]
        let total2 := total + 1
        if maxNodes ≤ total2 then (.halted, bwd2, total2)
        else expandBackwardPrims maxNodes forward g back_prog depth rest bwd2 total2

def expandBackwardNodes (maxNodes : Nat) (forward : Frontier)
    (inv_prims : List (Prim × Prim)) (depth : Nat) :
    List (Grid × Prim) → Frontier → Nat → ExpandStep × Frontier × Nat
  | [], bwd, total => (.normal, bwd, total)
  | (g, back_prog) :: rest, bwd, total =>
    match expandBackwardPrims maxNodes forward g back_prog depth inv_prims bwd total with
    | (.normal, bwd2, total2) =>
        expandBackwardNodes maxNodes forward inv_prims depth rest bwd2 total2
    | st => st

def expand_backward (maxNodes : Nat) (forward backward : Frontier)
    (inv_prims : List (Prim × Prim)) (depth total : Nat) :
    ExpandStep × Frontier × Nat :=
  let current := (backward.filter (fun p => p.2.depth == depth)).map
    (fun p => (p.2.grid, p.2.program))
  expandBackwardNodes maxNodes forward inv_prims depth current backward total

/-- The `for depth in 0..half_depth` loop of `BidirSearch::search`; `rem` is
the number of remaining iterations.  An `expand_*` early `return None`
(`halted`) falls through exactly like normal completion, matching the Rust
control flow. -/
def searchLoop (maxNodes : Nat) (prims : List Prim)
    (inv_pairs : List (Prim × Prim)) :
    Nat → Nat → Frontier → Frontier → Nat → Option BidirResult
  | 0, _, _, _, _ => none
  | rem + 1, depth, fwd, bwd, total =>
    match expand_forward maxNodes fwd bwd prims depth total with
    | (.found r, _, _) => some r
    | (_, fwd2, total2) =>
      if inv_pairs.isEmpty then
        if maxNodes ≤ total2 then none
        else searchLoop maxNodes prims inv_pairs rem (depth + 1) fwd2 bwd total2
      else
        match expand_backward maxNodes fwd2 bwd inv_pairs depth total2 with
        | (.found r, _, _) => some r
        | (_, bwd2, total3) =>
          if maxNodes ≤ total3 then none
          else searchLoop maxNodes prims inv_pairs rem (depth + 1) fwd2 bwd2 total3

/-- `BidirSearch::search` with `max_nodes = maxNodes`. -/
def search (maxNodes : Nat) (input target : Grid) (forward_prims : List Prim)
    (max_depth : Nat) : Option BidirResult :=
  if input = target then some ⟨.Identity, "identity", 0, 0, 0⟩
  else
    let inv_pairs := invertible_subset forward_prims
    let forward : Frontier := [(grid_hash input, ⟨input, .Identity, 0⟩)]
    let backward : Frontier := [(grid_hash target, ⟨target, .Identity, 0⟩)]
    searchLoop maxNodes forward_prims inv_pairs ((max_depth + 1) / 2) 0
      forward backward 2

/-- `BidirSearch::search_all`. -/
def search_all (maxNodes : Nat) (examples : List (Grid × Grid))
    (prims : List Prim) (max_depth : Nat) : Option BidirResult :=
  match examples with
  | [] => none
  | [(i, o)] => search maxNodes i o prims max_depth
  | (i, o) :: rest =>
    match search maxNodes i o prims max_depth with
    | none => none
    | some result =>
      if rest.all (fun p => result.program.apply p.1 == p.2) then some result
      else none

/-! ## Smart/learned transforms (src/synthesis/smart_prims.rs)

`FxHashMap<u8, u8>` color maps are modelled as association lists in insertion
order; only `get` is ever used on them, so the model is exact.  Rust indexes
`grid[r][c]` under the rectangularity invariant; the model uses the
0-defaulting `cell` accessor, which agrees on rectangular grids. -/

def cmGet (m : List (Nat × Nat)) (k : Nat) : Option Nat :=
  (m.find? (fun p => p.1 == k)).map (fun p => p.2)

/-- The cell loop of `learn_color_map` over the zipped cell pairs. -/
def learnColorLoop : List (Nat × Nat) → List (Nat × Nat) →
    Option (List (Nat × Nat))
  | [], m => some m
  | (ic, oc) :: rest, m =>
    match cmGet m ic with
    | some existing => if existing = oc then learnColorLoop rest m else none
    | none => learnColorLoop rest (m ++ [(ic, oc)])

def learn_color_map (input output : Grid) : Option (List (Nat × Nat)) :=
  if input.length ≠ output.length then none
  else if input.isEmpty then some []
  else if (input.headD []).length ≠ (output.headD []).length then none
  else learnColorLoop ((input.zip output).flatMap (fun ro => ro.1.zip ro.2)) []

def verify_color_map (map : List (Nat × Nat)) (examples : List (Grid × Grid)) :
    Bool :=
  examples.all (fun io =>
    if io.1.length ≠ io.2.length then false
    else if io.1.isEmpty then true
    else if (io.1.headD []).length ≠ (io.2.headD []).length then false
    else (io.1.zip io.2).all (fun ro => (ro.1.zip ro.2).all (fun co =>
      match cmGet map co.1 with
      | some m => m == co.2
      | none => false)))

def apply_color_map (grid : Grid) (map : List (Nat × Nat)) : Grid :=
  grid.map (fun row => row.map (fun c => (cmGet map c).getD c))

/-- `tile_with_self`, expressed per output cell: output position `(R, C)` lies
in block `(R / rows, C / cols)` at intra-block offset `(R % rows, C % cols)`;
the Rust nested writes are disjoint per cell, so this is the same grid. -/
def tile_with_self (grid : Grid) : Grid :=
  if grid.isEmpty then grid
  else
    let rws := grid.length
    let cols := (grid.headD []).length
    (List.range (rws * rws)).map (fun bigR =>
      (List.range (cols * cols)).map (fun bigC =>
        if cell grid (bigR / rws) (bigC / cols) ≠ 0 then
          cell grid (bigR % rws) (bigC % cols)
        else 0))

def tile_grid (grid : Grid) (n_r n_c : Nat) : Grid :=
  if grid.isEmpty || n_r == 0 || n_c == 0 then []
  else
    let rws := grid.length
    let cols := (grid.headD []).length
    (List.range (rws * n_r)).map (fun bigR =>
      (List.range (cols * n_c)).map (fun bigC =>
        cell grid (bigR % rws) (bigC % cols)))

def detect_tiling (input output : Grid) : Option (Nat × Nat) :=
  if input.isEmpty || output.isEmpty then none
  else
    let in_r := input.length
    let in_c := (input.headD []).length
    let out_r := output.length
    let out_c := (output.headD []).length
    if out_r % in_r ≠ 0 || out_c % in_c ≠ 0 then none
    else
      let n_r := out_r / in_r
      let n_c := out_c / in_c
      if n_r == 0 || n_c == 0 then none
      else if tile_grid input n_r n_c == output then some (n_r, n_c) else none

def detect_self_tiling (input output : Grid) : Bool :=
  tile_with_self input == output

def extract_subgrid (grid : Grid) (r c h w : Nat) : Grid :=
  ((grid.drop r).take h).map (fun row => (row.drop c).take w)

def detect_subgrid (input output : Grid) : Option (Nat × Nat × Nat × Nat) :=
  if output.isEmpty then none
  else
    let out_r := output.length
    let out_c := (output.headD []).length
    let cands := (List.range (input.length - out_r + 1)).flatMap (fun r =>
      (List.range ((input.headD []).length - out_c + 1)).map (fun c => (r, c)))
    (cands.find? (fun rc =>
      extract_subgrid input rc.1 rc.2 out_r out_c == output)).map
      (fun rc => (rc.1, rc.2, out_r, out_c))

def dedup_rows (grid : Grid) : Grid :=
  match grid with
  | [] => []
  | r0 :: rest =>
    rest.foldl (fun acc row =>
      if row ≠ acc.getLastD [] then acc ++ [row] else acc) [r0]

def dedup_cols (grid : Grid) : Grid :=
  match grid with
  | [] => []
  | r0 :: _ =>
    let cols := r0.length
    if cols == 0 then grid
    else
      let keep := (List.range cols).map (fun c =>
        c == 0 || !(grid.all (fun row => row.getD c 0 == row.getD (c - 1) 0)))
      grid.map (fun row =>
        ((row.enum.filter (fun iv => keep.getD iv.1 false)).map (fun iv => iv.2)))

/-- The per-tile-position color counts of `repair_period` (colors 1–9 counted,
0 skipped at selection time via the `skip(1)`). -/
def periodCounts (grid : Grid) (pr pc tr tc : Nat) : List Nat :=
  (List.range grid.length).foldl (fun cnts r =>
    if r % pr == tr then
      (List.range (grid.headD []).length).foldl (fun cnts2 c =>
        if c % pc == tc then
          let v := cell grid r c
          if 0 < v ∧ v < 10 then cnts2.set v (cnts2.getD v 0 + 1) else cnts2
        else cnts2) cnts
    else cnts) (List.replicate 10 0)

def repair_period (grid : Grid) (pr pc : Nat) : Grid :=
  if grid.isEmpty || pr == 0 || pc == 0 then grid
  else
    let rws := grid.length
    let cols := (grid.headD []).length
    let tile := (List.range pr).map (fun tr => (List.range pc).map (fun tc =>
      let cnts := periodCounts grid pr pc tr tc
      let pairs := ((List.range 10).drop 1).map (fun i => (i, cnts.getD i 0))
      match maxByKeyLast (fun p : Nat × Nat => p.2) pairs with
      | some p => if 0 < p.2 then p.1 else 0
      | none => 0))
    (List.range rws).map (fun r => (List.range cols).map (fun c =>
      cell tile (r % pr) (c % pc)))

def detect_damaged_period (input output : Grid) : Option (Nat × Nat) :=
  if input.length ≠ output.length ∨ input.isEmpty
      ∨ (input.headD []).length ≠ (output.headD []).length then none
  else
    let rws := input.length
    let cols := (input.headD []).length
    let cands := (List.range' 1 (rws / 2)).flatMap (fun pr =>
      if rws % pr == 0 then
        (List.range' 1 (cols / 2)).filterMap (fun pc =>
          if cols % pc == 0 then some (pr, pc) else none)
      else [])
    cands.find? (fun p =>
      let output_periodic := (List.range rws).all (fun r =>
        (List.range cols).all (fun c =>
          cell output r c == cell output (r % p.1) (c % p.2)))
      let input_consistent := (List.range rws).all (fun r =>
        (List.range cols).all (fun c =>
          cell input r c == 0 || cell input r c == cell output r c))
      let has_damage := (List.range rws).any (fun r =>
        (List.range cols).any (fun c =>
          cell input r c == 0 && !(cell output r c == 0)))
      output_periodic && input_consistent && has_damage)

inductive SmartTransform where
  | ColorMap (map : List (Nat × Nat))
  | SelfTile
  | Tile (nr nc : Nat)
  | Subgrid (r c h w : Nat)
  | DedupRows
  | DedupCols
  | RepairPeriod (pr pc : Nat)
deriving DecidableEq, Repr

def SmartTransform.apply : SmartTransform → Grid → Grid
  | .ColorMap map, g => apply_color_map g map
  | .SelfTile, g => tile_with_self g
  | .Tile nr nc, g => tile_grid g nr nc
  | .Subgrid r c h w, g => extract_subgrid g r c h w
  | .DedupRows, g => dedup_rows g
  | .DedupCols, g => dedup_cols g
  | .RepairPeriod pr pc, g => repair_period g pr pc

def SmartTransform.name : SmartTransform → String
  | .ColorMap _ => "color_map"
  | .SelfTile => "self_tile"
  | .Tile _ _ => "tile"
  | .Subgrid _ _ _ _ => "subgrid"
  | .DedupRows => "dedup_rows"
  | .DedupCols => "dedup_cols"
  | .RepairPeriod _ _ => "repair_period"

def try_smart_transforms (examples : List (Grid × Grid)) :
    Option SmartTransform :=
  match examples with
  | [] => none
  | (i0, o0) :: _ =>
    let s1 := match learn_color_map i0 o0 with
      | some map =>
        if verify_color_map map examples then some (SmartTransform.ColorMap map)
        else none
      | none => none
    let s2 := if detect_self_tiling i0 o0
        && examples.all (fun io => detect_self_tiling io.1 io.2) then
        some SmartTransform.SelfTile
      else none
    let s3 := match detect_tiling i0 o0 with
      | some nrnc =>
        if examples.all (fun io => detect_tiling io.1 io.2 == some nrnc) then
          some (SmartTransform.Tile nrnc.1 nrnc.2)
        else none
      | none => none
    let s4 := match detect_subgrid i0 o0 with
      | some (r, c, h, w) =>
        if examples.all (fun io => extract_subgrid io.1 r c h w == io.2) then
          some (SmartTransform.Subgrid r c h w)
        else none
      | none => none
    let s5 := if examples.all (fun io => dedup_rows io.1 == io.2) then
        some SmartTransform.DedupRows
      else none
    let s6 := if examples.all (fun io => dedup_cols io.1 == io.2) then
        some SmartTransform.DedupCols
      else none
    let s7 := match detect_damaged_period i0 o0 with
      | some prpc =>
        if examples.all (fun io => repair_period io.1 prpc.1 prpc.2 == io.2) then
          some (SmartTransform.RepairPeriod prpc.1 prpc.2)
        else none
      | none => none
    ((((((s1.orElse fun _ => s2).orElse fun _ => s3).orElse fun _ =>
       s4).orElse fun _ => s5).orElse fun _ => s6).orElse fun _ => s7)

/-! ## Cellular-automaton rule learning (src/synthesis/cellular.rs)

The `FxHashMap<NeighborSignature, u8>` rule is modelled as an association
list in insertion order; only `get` is used on it. -/

def offsets8 : List (Int × Int) :=
  [(-1, -1), (-1, 0), (-1, 1), (0, -1), (0, 1), (1, -1), (1, 0), (1, 1)]

def moore_neighborhood (g : Grid) (r c : Nat) : List Nat :=
  let rws : Int := g.length
  let cols : Int := (g.headD []).length
  offsets8.map (fun d =>
    let nr : Int := (r : Int) + d.1
    let nc : Int := (c : Int) + d.2
    if 0 ≤ nr ∧ nr < rws ∧ 0 ≤ nc ∧ nc < cols then cell g nr.toNat nc.toNat
    else 0)

structure NeighborSignature where
  center : Nat
  counts : List Nat
  border : Bool
deriving DecidableEq, Repr

def neighbor_signature (g : Grid) (r c : Nat) : NeighborSignature :=
  let cnts := (moore_neighborhood g r c).foldl (fun cnts n =>
    if n < 10 then cnts.set n (cnts.getD n 0 + 1) else cnts)
    (List.replicate 10 0)
  let rws := g.length
  let cols := (g.headD []).length
  ⟨cell g r c, cnts, r == 0 || c == 0 || r == rws - 1 || c == cols - 1⟩

def rget (m : List (NeighborSignature × Nat)) (k : NeighborSignature) :
    Option Nat :=
  (m.find? (fun p => p.1 == k)).map (fun p => p.2)

/-- The cell loop of `learn_ca_rule`. -/
def learnCaLoop (input output : Grid) :
    List (Nat × Nat) → List (NeighborSignature × Nat) →
    Option (List (NeighborSignature × Nat))
  | [], rule => some rule
  | (r, c) :: rest, rule =>
    let sig := neighbor_signature input r c
    let out_color := cell output r c
    match rget rule sig with
    | some existing =>
      if existing = out_color then learnCaLoop input output rest rule else none
    | none => learnCaLoop input output rest (rule ++ [(sig, out_color)])

def learn_ca_rule (input output : Grid) :
    Option (List (NeighborSignature × Nat)) :=
  if input.length ≠ output.length then none
  else if input.isEmpty then some []
  else if (input.headD []).length ≠ (output.headD []).length then none
  else learnCaLoop input output
    ((List.range input.length).flatMap (fun r =>
      (List.range (input.headD []).length).map (fun c => (r, c)))) []

def apply_ca_rule (g : Grid) (rule : List (NeighborSignature × Nat)) : Grid :=
  if g.isEmpty then g
  else (List.range g.length).map (fun r =>
    (List.range (g.headD []).length).map (fun c =>
      (rget rule (neighbor_signature g r c)).getD (cell g r c)))

def verify_ca_rule (rule : List (NeighborSignature × Nat))
    (examples : List (Grid × Grid)) : Bool :=
  examples.all (fun io => apply_ca_rule io.1 rule == io.2)

def apply_ca_steps (rule : List (NeighborSignature × Nat)) :
    Grid → Nat → Grid
  | g, 0 => g
  | g, n + 1 =>
    let next := apply_ca_rule g rule
    if next = g then g else apply_ca_steps rule next n

structure CaSolution where
  rule : List (NeighborSignature × Nat)
  steps : Nat
deriving DecidableEq, Repr

def CaSolution.apply (s : CaSolution) (g : Grid) : Grid :=
  apply_ca_steps s.rule g s.steps

/-- The `for steps in 2..=max_steps` loop of `try_ca_solve`. -/
def caStepsLoop (examples : List (Grid × Grid)) (i0 o0 : Grid) :
    List Nat → Option CaSolution
  | [] => none
  | s :: rest =>
    if 2 ≤ examples.length then
      match learn_ca_rule i0 o0 with
      | some rule =>
        if examples.all (fun io => apply_ca_steps rule io.1 s == io.2) then
          some ⟨rule, s⟩
        else caStepsLoop examples i0 o0 rest
      | none => caStepsLoop examples i0 o0 rest
    else caStepsLoop examples i0 o0 rest

def try_ca_solve (examples : List (Grid × Grid)) (max_steps : Nat) :
    Option CaSolution :=
  match examples with
  | [] => none
  | (i0, o0) :: _ =>
    let step1 := match learn_ca_rule i0 o0 with
      | some rule =>
        if verify_ca_rule rule examples then some (⟨rule, 1⟩ : CaSolution)
        else none
      | none => none
    match step1 with
    | some s => some s
    | none => caStepsLoop examples i0 o0 (List.range' 2 (max_steps - 1))

/-! ## DAG search (src/synthesis/abstraction.rs, `SearchDag::search`) -/

structure DagNode where
  grid : Grid
  program : Prim
  depth : Nat
deriving DecidableEq, Repr

inductive DagStep where
  | found (p : Prim)
  | capped (new_nodes : List DagNode)
  | normal (new_nodes : List DagNode)
deriving DecidableEq, Repr

/-- Inner primitive loop of `SearchDag::search` for one node of the current
depth. -/
def dagPrimLoop (maxNodes : Nat) (target : Grid) (nodes : List DagNode)
    (g : Grid) (prog : Prim) (depth : Nat) :
    List Prim → List DagNode → DagStep
  | [], new_nodes => .normal new_nodes
  | prim :: rest, new_nodes =>
    let result := prim.apply g
    if result = target then
      .found (if depth = 0 then prim else .Compose prog prim)
    else if nodes.any (fun n => n.grid == result)
        || new_nodes.any (fun n => n.grid == result) then
      dagPrimLoop maxNodes target nodes g prog depth rest new_nodes
    else if result = g then
      dagPrimLoop maxNodes target nodes g prog depth rest new_nodes
    else
      let new_prog := if depth = 0 then prim else Prim.Compose prog prim
      let nn2 := new_nodes ++ [⟨result, new_prog, depth + 1⟩]
      if maxNodes ≤ nodes.length + nn2.length then .capped nn2
      else dagPrimLoop maxNodes target nodes g prog depth rest nn2

/-- Node loop of `SearchDag::search` over the snapshot of nodes present at
the start of the depth iteration. -/
def dagNodeLoop (maxNodes : Nat) (target : Grid) (prims : List Prim)
    (nodes : List DagNode) (depth : Nat) :
    List DagNode → List DagNode → DagStep
  | [], new_nodes => .normal new_nodes
  | node :: rest, new_nodes =>
    if node.depth = depth then
      match dagPrimLoop maxNodes target nodes node.grid node.program depth
          prims new_nodes with
      | .normal nn =>
        if maxNodes ≤ nodes.length + nn.length then .capped nn
        else dagNodeLoop maxNodes target prims nodes depth rest nn
      | st => st
    else dagNodeLoop maxNodes target prims nodes depth rest new_nodes

/-- The `for depth in 0..max_depth` loop of `SearchDag::search`; the cap only
exits the node loop of the current depth, after which the new nodes are
appended and the depth loop continues. -/
def dagDepthLoop (maxNodes : Nat) (target : Grid) (prims : List Prim) :
    Nat → Nat → List DagNode → Option Prim × Nat
  | 0, _, nodes => (none, nodes.length)
  | rem + 1, depth, nodes =>
    match dagNodeLoop maxNodes target prims nodes depth nodes [] with
    | .found p => (some p, nodes.length)
    | .capped nn => dagDepthLoop maxNodes target prims rem (depth + 1) (nodes ++ nn)
    | .normal nn => dagDepthLoop maxNodes target prims rem (depth + 1) (nodes ++ nn)

/-- `SearchDag::search` (with max_nodes fixed at construction); the second
component is `nodes_explored()` as observable when `search` returns. -/
def dagSearch (maxNodes : Nat) (input target : Grid) (primitives : List Prim)
    (max_depth : Nat) : Option Prim × Nat :=
  let nodes : List DagNode := [⟨input, .Identity, 0⟩]
  if input = target then (some .Identity, nodes.length)
  else dagDepthLoop maxNodes target primitives max_depth 0 nodes

/-! ## The solver cascade (src/bench/arc.rs)

The wall clock is modelled by an oracle `Nat → Bool`: the n-th call of
`start.elapsed().as_millis() > TASK_TIMEOUT_MS` returns `oracle n`.  `f64`
mdl values are modelled by `MdlVal`: `fin q` for a finite score, `inf` for
`f64::INFINITY`, and `undef` when `description_length` hits one of its
missing match arms (code that does not compile; cf. the C5 analysis). -/

structure ArcExample where
  input : Grid
  output : Grid
deriving DecidableEq, Repr

structure ArcTask where
  id : String
  train : List ArcExample
  test : List ArcExample
deriving DecidableEq, Repr

inductive MdlVal where
  | fin (q : ℚ)
  | undef
  | inf
deriving DecidableEq, Repr

def mdlOf : Option ℚ → MdlVal
  | some q => .fin q
  | none => .undef

structure ArcResult where
  task_id : String
  solved : Bool
  method : String
  program_size : Nat
  checked : Nat
  mdl : MdlVal
deriving DecidableEq, Repr

def validates (program : Prim) (task : ArcTask) : Bool :=
  task.test.all (fun ex => program.apply ex.input == ex.output)

def unsolvedR (task : ArcTask) (checked : Nat) : ArcResult :=
  ⟨task.id, false, "none", 0, checked, .inf⟩

/-- The `'compose` loop of stage 1b, with the per-iteration timeout poll;
returns (found composition, checked counter, polls consumed). -/
def compose2Loop (oracle : Nat → Bool) (examples : List (Grid × Grid))
    (task : ArcTask) :
    List (Prim × Prim) → Nat → Nat → Option Prim × Nat × Nat
  | [], checked, polls => (none, checked, polls)
  | (a, b) :: rest, checked, polls =>
    let checked := checked + 1
    let composed := Prim.Compose a b
    if matches_all composed examples && validates composed task then
      (some composed, checked, polls)
    else if oracle polls then (none, checked, polls + 1)
    else compose2Loop oracle examples task rest checked (polls + 1)

/-- `solve_arc_task`: the full strategy cascade. -/
def solve_arc_task (oracle : Nat → Bool) (task : ArcTask) (max_size : Nat) :
    ArcResult :=
  let examples := task.train.map (fun ex => (ex.input, ex.output))
  let r0 := match try_smart_transforms examples with
    | some smart =>
      if task.test.all (fun ex => smart.apply ex.input == ex.output) then
        some (⟨task.id, true, "smart_" ++ smart.name, 1, 1, .fin 2⟩ : ArcResult)
      else none
    | none => none
  match r0 with
  | some r => r
  | none =>
  let rca := match try_ca_solve examples 3 with
    | some ca =>
      if task.test.all (fun ex => ca.apply ex.input == ex.output) then
        some (⟨task.id, true, "cellular_" ++ toString ca.steps ++ "steps",
          1, 1, .fin 3⟩ : ArcResult)
      else none
    | none => none
  match rca with
  | some r => r
  | none =>
  let heuristic_prims := select_primitives (analyze_features examples)
  let r1a := match heuristic_prims.find?
      (fun p => matches_all p examples && validates p task) with
    | some p => some (⟨task.id, true, "heuristic_single", p.size,
        heuristic_prims.length, mdlOf (mdl_score p examples)⟩ : ArcResult)
    | none => none
  match r1a with
  | some r => r
  | none =>
  let pairs := heuristic_prims.flatMap (fun a =>
    heuristic_prims.map (fun b => (a, b)))
  match compose2Loop oracle examples task pairs heuristic_prims.length 0 with
  | (some composed, checked, _) =>
    ⟨task.id, true, "heuristic_compose2", composed.size, checked,
      mdlOf (mdl_score composed examples)⟩
  | (none, checked, polls) =>
  if oracle polls then unsolvedR task checked
  else
  let r2 := match search_all 5000 examples heuristic_prims 3 with
    | some result =>
      if validates result.program task then
        some (⟨task.id, true,
          "bidir_" ++ toString result.forward_depth ++ "f_"
            ++ toString result.backward_depth ++ "b",
          result.program.size, checked + result.nodes_explored,
          mdlOf (mdl_score result.program examples)⟩ : ArcResult)
      else none
    | none => none
  match r2 with
  | some r => r
  | none =>
  if oracle (polls + 1) then unsolvedR task checked
  else
  let r3 := match examples.head? with
    | some first_ex =>
      match dagSearch 20000 first_ex.1 first_ex.2 heuristic_prims 3 with
      | (some prog, explored) =>
        if matches_all prog examples && validates prog task then
          some (⟨task.id, true, "dag_search", prog.size, checked + explored,
            mdlOf (mdl_score prog examples)⟩ : ArcResult)
        else none
      | (none, _) => none
    | none => none
  match r3 with
  | some r => r
  | none =>
  if oracle (polls + 2) then unsolvedR task checked
  else
  let r4 := match synthesize examples (Nat.min max_size 2) with
    | some result =>
      if validates result.program task then
        some (⟨task.id, true, "enumerate", result.size,
          checked + result.checked,
          mdlOf (mdl_score result.program examples)⟩ : ArcResult)
      else none
    | none => none
  match r4 with
  | some r => r
  | none =>
  if oracle (polls + 3) then unsolvedR task checked
  else
  let r5 := match evolve examples 30 50 with
    | some ind =>
      if validates ind.program task then
        some (⟨task.id, true, "evolution", ind.program.size, checked + 1500,
          mdlOf (mdl_score ind.program examples)⟩ : ArcResult)
      else none
    | none => none
  match r5 with
  | some r => r
  | none => unsolvedR task checked

/-- Claim C2 (counterexample): on input `I = [[1,0,0],[1,1,0]]`, target
`T = [[2,2],[2,0],[0,0]]` and forward primitives `[RotateCW, ReplaceColor 1 2]`,
`BidirSearch::search` (max_nodes 5000, max_depth 3) meets in the middle —
forward node `ReplaceColor 1 2` at depth 1, backward step `RotateCW` (applied
as its inverse `RotateCCW` to `T`) — and returns the program
`Compose (ReplaceColor 1 2) RotateCCW`.  Applying that program to `I` yields
`[[0,0],[0,2],[2,2]] ≠ T`: reconstruction inverts the stored *forward*
primitive of the backward path a second time, so the claim that the returned
program always maps `I` to exactly `T` is false for non-self-inverse
primitives. -/
theorem c2_counterexample :
    search 5000 [[1, 0, 0], [1, 1, 0]] [[2, 2], [2, 0], [0, 0]]
        [.RotateCW, .ReplaceColor 1 2] 3 =
      some ⟨.Compose (.ReplaceColor 1 2) .RotateCCW, "bidirectional", 1, 1, 4⟩
    ∧ Prim.apply (.Compose (.ReplaceColor 1 2) .RotateCCW) [[1, 0, 0], [1, 1, 0]]
        = [[0, 0], [0, 2], [2, 2]]
    ∧ ([[0, 0], [0, 2], [2, 2]] : Grid) ≠ [[2, 2], [2, 0], [0, 0]] := by
  refine ⟨?_, by decide, by decide⟩
  decide

/-- The C1 task: one training pair (the C2 counterexample pair) and one
held-out pair whose expected output is the image of the test input under the
buggy program the bidirectional stage reconstructs. -/
def c1Task : ArcTask :=
  ⟨"t1", [⟨[[1, 0, 0], [1, 1, 0]], [[2, 2], [2, 0], [0, 0]]⟩],
    [⟨[[3, 0, 0], [0, 0, 0]], [[0, 0], [0, 0], [3, 0]]⟩]⟩

/-- Claim C1 (counterexample): on `c1Task` the cascade (no timeout) returns
`solved = true` with method `bidir_1f_1b`, accepting the program returned by
`search_all` — `Compose (ReplaceColor 1 2) RotateCCW` — which maps the
training input to `[[0,0],[0,2],[2,2]]`, not the training output
`[[2,2],[2,0],[0,0]]`.  The bidirectional stage re-verifies only the held-out
pairs (`validates`) and the training pairs from index 1 on (inside
`search_all`); training pair 0 is never re-checked against the reconstructed
program, so a solved result can fail a training output exactly. -/
theorem c1_counterexample :
    (solve_arc_task (fun _ => false) c1Task 3).solved = true
    ∧ (solve_arc_task (fun _ => false) c1Task 3).method = "bidir_1f_1b"
    ∧ (∃ res,
        search_all 5000 [([[1, 0, 0], [1, 1, 0]], [[2, 2], [2, 0], [0, 0]])]
          (select_primitives (analyze_features
            [([[1, 0, 0], [1, 1, 0]], [[2, 2], [2, 0], [0, 0]])])) 3 = some res
        ∧ res.program.apply [[1, 0, 0], [1, 1, 0]] ≠ [[2, 2], [2, 0], [0, 0]]) := by
  refine ⟨by decide, by decide,
    ⟨⟨.Compose (.ReplaceColor 1 2) .RotateCCW, "bidirectional", 1, 1, 9⟩,
      by decide, by decide⟩⟩

/-- Every result of `solve_arc_task` either reports `solved = true` or is
literally `unsolved(task, checked)` for some accumulated `checked`. -/
theorem solve_arc_task_shape (oracle : Nat → Bool) (task : ArcTask)
    (max_size : Nat) :
    (solve_arc_task oracle task max_size).solved = true
    ∨ ∃ c, solve_arc_task oracle task max_size = unsolvedR task c := by
  unfold solve_arc_task
  dsimp only
  repeat' split
  all_goals first
    | exact Or.inl rfl
    | exact Or.inr ⟨_, rfl⟩
    | (rename_i r heq
       repeat' split at heq
       all_goals first
         | exact Option.noConfusion heq
         | (cases heq
            exact Or.inl rfl))

/-- Claim C8: whenever `solve_arc_task` returns a result with
`solved = false` — in particular when the wall-clock budget (modelled by the
poll oracle) expires mid-cascade — the result has `method = "none"`,
`program_size = 0` and `mdl = +∞` (and carries the task's id); the witness
instantiates a first-poll timeout and checks that the partial `checked`
count accumulated in stage 1b is preserved in the result. -/
theorem c8_unsolved_shape (oracle : Nat → Bool) (task : ArcTask)
    (max_size : Nat)
    (h : (solve_arc_task oracle task max_size).solved = false) :
    (solve_arc_task oracle task max_size).task_id = task.id
    ∧ (solve_arc_task oracle task max_size).method = "none"
    ∧ (solve_arc_task oracle task max_size).program_size = 0
    ∧ (solve_arc_task oracle task max_size).mdl = MdlVal.inf := by
  rcases solve_arc_task_shape oracle task max_size with hs | ⟨c, hc⟩
  · rw [hs] at h
    exact Bool.noConfusion h
  · rw [hc]
    exact ⟨rfl, rfl, rfl, rfl⟩

/-- The C8 task: same training pair, no held-out pairs; run with an oracle
whose every poll reports the budget as exceeded. -/
def c8Task : ArcTask :=
  ⟨"t8", [⟨[[1, 0, 0], [1, 1, 0]], [[2, 2], [2, 0], [0, 0]]⟩], []⟩

/-- Claim C8 witness: on `c8Task` with a first-poll timeout the cascade
returns unsolved with the `method`/`program_size`/`mdl` shape of the claim,
and the `checked` count accumulated so far — the heuristic primitive count
plus the single stage-1b composition tried before the poll — is preserved. -/
theorem c8_witness :
    (solve_arc_task (fun _ => true) c8Task 3).solved = false
    ∧ ((solve_arc_task (fun _ => true) c8Task 3).task_id = c8Task.id
      ∧ (solve_arc_task (fun _ => true) c8Task 3).method = "none"
      ∧ (solve_arc_task (fun _ => true) c8Task 3).program_size = 0
      ∧ (solve_arc_task (fun _ => true) c8Task 3).mdl = MdlVal.inf)
    ∧ (solve_arc_task (fun _ => true) c8Task 3).checked
        = (select_primitives (analyze_features
            (c8Task.train.map (fun ex => (ex.input, ex.output))))).length + 1 :=
  ⟨by decide, c8_unsolved_shape (fun _ => true) c8Task 3 (by decide), by decide⟩

end Koloss
